import Mathlib

/-
  Verification development for the insider-threat simulation core
  (mini_mesa_LSC.py) and its sweep evaluator
  (sweep_thresholds_ablation_LSC.py).

  Modelling conventions:
  - Python floats are modelled as exact rationals; the numeric literals of
    the source (0.015, 0.85, ...) are carried exactly.
  - The shared random stream of random.Random(seed) is modelled as a
    function from draw index to rational; the model state tracks the index
    of the next draw, mirroring the single shared stream the source
    threads through background noise and the five attackers.
  - The open meta dictionary of the source carries a fixed set of keys
    (service, cmd, severity_inc, degraded, severity, cause_actor_id and the
    boolean flag of the PUSH command); it is modelled as a record of
    optional fields, absent key = none.
  - Event dictionaries (asdict) and Event objects carry the same fields;
    both lists of the model hold the same record type.
-/

namespace CdtMVP

/-- Closed record standing for the open per-event meta dictionary. The
field isUnsafe models the key named after the attacker PUSH flag. -/
structure EventMeta where
  service : Option String := none
  cmd : Option String := none
  severity_inc : Option ℚ := none
  isUnsafe : Option Bool := none
  degraded : Option Bool := none
  severity : Option ℚ := none
  cause_actor_id : Option (Option ℤ) := none
  deriving DecidableEq

/-- Event dataclass of mini_mesa_LSC.py. -/
structure Event where
  step : ℕ
  event_type : String
  actor_id : ℤ
  resource : String
  action : String
  label : String := "benign"
  scenario : Option String := none
  phase : Option String := none
  meta : EventMeta := {}
  deriving DecidableEq

/-- State of the TrafficTwin object. -/
structure TrafficTwin where
  service : String := "traffic"
  degrade_threshold : ℚ := 0.25
  severity : ℚ := 0
  degraded : Bool := false
  cause_actor_id : Option ℤ := none
  deriving DecidableEq

/-- State of the InsiderModel object. rng_idx is the index of the next
draw taken from the shared random stream. -/
structure InsiderModel where
  rng_idx : ℕ
  threshold : ℤ
  warmup_steps : ℕ
  test_steps : ℕ
  step_idx : ℕ
  events : List Event
  action_events : List Event
  traffic_twin : TrafficTwin
  deriving DecidableEq

/-- One call of rng.random: read the stream at the current index and
advance the index. -/
def draw (ρ : ℕ → ℚ) (m : InsiderModel) : ℚ × InsiderModel :=
  (ρ m.rng_idx, { m with rng_idx := m.rng_idx + 1 })

/-- InsiderModel._tag_phase. -/
def tag_phase (m : InsiderModel) (e : Event) : Event :=
  { e with phase := some (if m.step_idx < m.warmup_steps then "train" else "test") }

/-- InsiderModel.emit_action: tag the phase, append to the step buffer and
to the cumulative log. -/
def emit_action (m : InsiderModel) (e : Event) : InsiderModel :=
  let e := tag_phase m e
  { m with action_events := m.action_events ++ [e], events := m.events ++ [e] }

/-- InsiderModel._emit_benign_background: one draw per background actor id
5..11, emitting a benign auth event on success. -/
def emit_benign_background (ρ : ℕ → ℚ) (m : InsiderModel) : InsiderModel :=
  (List.range' 5 7).foldl
    (fun m (actor_id : ℕ) =>
      let rm := draw ρ m
      if rm.1 < 0.2 then
        emit_action rm.2
          { step := rm.2.step_idx, event_type := "auth", actor_id := (actor_id : ℤ),
            resource := "vpn", action := "login", label := "benign" }
      else rm.2)
    m

/-- MaliciousInsider.act: the five scenario branches, consuming draws in
source order (both draws of a two-rule scenario are always consumed). -/
def MaliciousInsider.act (ρ : ℕ → ℚ) (unique_id : ℤ) (scenario : String)
    (m : InsiderModel) : InsiderModel :=
  if scenario = "acct_takeover" then
    let r1 := draw ρ m
    let m1 :=
      if r1.1 < 0.20 then
        emit_action r1.2
          { step := r1.2.step_idx, event_type := "auth", actor_id := unique_id,
            resource := "admin_console", action := "after_hours_login",
            label := "malicious", scenario := some scenario }
      else r1.2
    let r2 := draw ρ m1
    if r2.1 < 0.12 then
      emit_action r2.2
        { step := r2.2.step_idx, event_type := "cps_command", actor_id := unique_id,
          resource := "traffic_corridor_A", action := "PUSH_TIMING_PLAN",
          label := "malicious", scenario := some scenario,
          meta := { service := some ("traffic"), cmd := some ("PUSH_TIMING_PLAN"),
                    severity_inc := some 0.85, isUnsafe := some true } }
    else r2.2
  else if scenario = "stealth" then
    let r1 := draw ρ m
    let m1 :=
      if r1.1 < 0.07 then
        emit_action r1.2
          { step := r1.2.step_idx, event_type := "db_query", actor_id := unique_id,
            resource := "citizen_db", action := "suspicious_query",
            label := "malicious", scenario := some scenario }
      else r1.2
    let r2 := draw ρ m1
    if r2.1 < 0.10 then
      emit_action r2.2
        { step := r2.2.step_idx, event_type := "cps_command", actor_id := unique_id,
          resource := "traffic_corridor_A", action := "TWEAK_OFFSET",
          label := "malicious", scenario := some scenario,
          meta := { service := some ("traffic"), cmd := some ("TWEAK_OFFSET"),
                    severity_inc := some 0.03 } }
    else r2.2
  else if scenario = "staging_exfil" then
    let r1 := draw ρ m
    if r1.1 < 0.09 then
      emit_action r1.2
        { step := r1.2.step_idx, event_type := "file_access", actor_id := unique_id,
          resource := "share", action := "zip_batch",
          label := "malicious", scenario := some scenario }
    else r1.2
  else if scenario = "exfil" then
    let r1 := draw ρ m
    if r1.1 < 0.11 then
      emit_action r1.2
        { step := r1.2.step_idx, event_type := "network", actor_id := unique_id,
          resource := "egress", action := "bulk_upload",
          label := "malicious", scenario := some scenario }
    else r1.2
  else if scenario = "email_only" then
    let r1 := draw ρ m
    if r1.1 < 0.08 then
      emit_action r1.2
        { step := r1.2.step_idx, event_type := "email", actor_id := unique_id,
          resource := "mail", action := "phish_send",
          label := "malicious", scenario := some scenario }
    else r1.2
  else m

/-- One command event acting on the twin accumulator (severity, cause),
the body of the scan loop in TrafficTwin.step. -/
def twin_apply (degrade_threshold : ℚ) (sc : ℚ × Option ℤ) (e : Event) :
    ℚ × Option ℤ :=
  if e.event_type ≠ "cps_command" then sc
  else if e.meta.cmd = some ("PUSH_TIMING_PLAN") then
    (max sc.1 ((e.meta.severity_inc).getD 0.9),
     if 0 ≤ e.actor_id then some e.actor_id else sc.2)
  else if e.meta.cmd = some ("TWEAK_OFFSET") then
    (min 1 (sc.1 + (e.meta.severity_inc).getD 0.03),
     if 0 ≤ e.actor_id then some e.actor_id else sc.2)
  else if e.meta.cmd = some ("ROLLBACK_PLAN") then
    (max 0 (sc.1 - 0.3),
     if max 0 (sc.1 - 0.3) < degrade_threshold then none else sc.2)
  else sc

/-- Python round(x, 4); tie behaviour abstracted to round-to-nearest. -/
def round4 (q : ℚ) : ℚ := (round (q * 10000) : ℚ) / 10000

/-- TrafficTwin.step: decay, scan the step buffer, set degraded, emit the
service state snapshot event. -/
def TrafficTwin.step (m : InsiderModel) : InsiderModel :=
  let t := m.traffic_twin
  let sc := m.action_events.foldl (twin_apply t.degrade_threshold)
    (max 0 (t.severity - 0.015), t.cause_actor_id)
  let degraded : Bool := decide (t.degrade_threshold ≤ sc.1)
  let m1 := { m with traffic_twin :=
    { t with severity := sc.1, degraded := degraded, cause_actor_id := sc.2 } }
  emit_action m1
    { step := m1.step_idx, event_type := "cps_service_state", actor_id := -1,
      resource := "traffic_corridor_A", action := "service_state", label := "benign",
      meta := { service := some t.service, degraded := some degraded,
                severity := some (round4 sc.1), cause_actor_id := some sc.2 } }

/-- Label-malicious with a non-negative actor id: the filter of the
monitor in InsiderModel._run_monitors. -/
def isSuspicious (e : Event) : Bool :=
  e.label == "malicious" && decide (0 ≤ e.actor_id)

/-- Insert into a sorted duplicate-free list of integers. -/
def insertSortedNoDup (a : ℤ) : List ℤ → List ℤ
  | [] => [a]
  | b :: t =>
    if a < b then a :: b :: t
    else if a = b then b :: t
    else b :: insertSortedNoDup a t

/-- Sorted duplicate-free list of the members, the model of the python
expression sorted(set(l)). -/
def sortedDedup (l : List ℤ) : List ℤ := l.foldr insertSortedNoDup []

/-- InsiderModel._run_monitors: count malicious events in the current step
buffer with multiplicity; at or above the threshold, emit one
alert_confirmed per distinct suspicious actor of the buffer, in ascending
order. -/
def run_monitors (m : InsiderModel) : InsiderModel :=
  let suspicious := (m.action_events.filter isSuspicious).length
  if m.threshold ≤ (suspicious : ℤ) then
    (sortedDedup ((m.action_events.filter isSuspicious).map (fun e => e.actor_id))).foldl
      (fun m a =>
        emit_action m
          { step := m.step_idx, event_type := "alert_confirmed", actor_id := a,
            resource := "siem", action := "confirm", label := "benign" })
      m
  else m

/-- Reset of the step buffer at the top of InsiderModel.step. -/
def clear_buffer (m : InsiderModel) : InsiderModel := { m with action_events := [] }

/-- Fixed attacker pool of InsiderModel.__init__: ids 0..4 paired with the
five scenarios in construction order. -/
def attackers : List (ℤ × String) :=
  [(0, "acct_takeover"), (1, "stealth"), (2, "staging_exfil"),
   (3, "exfil"), (4, "email_only")]

/-- The attacker loop of InsiderModel.step. -/
def actorsAct (ρ : ℕ → ℚ) (m : InsiderModel) : InsiderModel :=
  attackers.foldl (fun m p => MaliciousInsider.act ρ p.1 p.2 m) m

/-- Model state right before the twin update within one step. -/
def pre_twin (ρ : ℕ → ℚ) (m : InsiderModel) : InsiderModel :=
  actorsAct ρ (emit_benign_background ρ (clear_buffer m))

/-- Model state right before the monitor within one step. -/
def pre_monitor (ρ : ℕ → ℚ) (m : InsiderModel) : InsiderModel :=
  TrafficTwin.step (pre_twin ρ m)

/-- InsiderModel.step: buffer reset, background noise, attacker actions,
twin update, monitor, conditional synthetic rollback, step advance. -/
def InsiderModel.step (ρ : ℕ → ℚ) (m : InsiderModel) : InsiderModel :=
  let m1 := run_monitors (pre_monitor ρ m)
  let m2 :=
    if m1.action_events.any (fun e => e.event_type == "alert_confirmed") then
      emit_action m1
        { step := m1.step_idx, event_type := "cps_command", actor_id := -1,
          resource := "traffic_corridor_A", action := "ROLLBACK_PLAN",
          label := "benign",
          meta := { service := some ("traffic"), cmd := some ("ROLLBACK_PLAN") } }
    else m1
  { m2 with step_idx := m2.step_idx + 1 }

/-- InsiderModel.__init__ with the random stream standing for the seeded
random.Random instance. -/
def initModel (warmup_steps test_steps : ℕ) (threshold : ℤ) : InsiderModel :=
  { rng_idx := 0, threshold := threshold, warmup_steps := warmup_steps,
    test_steps := test_steps, step_idx := 0, events := [], action_events := [],
    traffic_twin := {} }

/-- Model state after k calls of InsiderModel.step. -/
def stateAfter (ρ : ℕ → ℚ) (warmup_steps test_steps : ℕ) (threshold : ℤ)
    (k : ℕ) : InsiderModel :=
  (InsiderModel.step ρ)^[k] (initModel warmup_steps test_steps threshold)

/-- run_simulation: total_steps = warmup_steps + test_steps iterations of
InsiderModel.step, returning the cumulative event log. -/
def run_simulation (ρ : ℕ → ℚ) (warmup_steps test_steps : ℕ) (threshold : ℤ) :
    List Event :=
  (stateAfter ρ warmup_steps test_steps threshold (warmup_steps + test_steps)).events

/-! Evaluator of sweep_thresholds_ablation_LSC.py. -/

/-- filter_to_test: keep only test-phase events. -/
def filter_to_test (events : List Event) : List Event :=
  events.filter (fun e => e.phase == some ("test"))

/-- Distinct non-negative actor ids of the log, ascending. -/
def actorsOf (events : List Event) : List ℤ :=
  sortedDedup ((events.filter (fun e => decide (0 ≤ e.actor_id))).map (fun e => e.actor_id))

/-- Distinct actor ids carrying any malicious-labeled event, ascending;
the python set named malicious. -/
def maliciousOf (events : List Event) : List ℤ :=
  sortedDedup (((events.filter
    (fun e => e.label == "malicious" && decide (0 ≤ e.actor_id))).map (fun e => e.actor_id)))

/-- Distinct actor ids carrying any alert_confirmed event, ascending; the
python set named confirmed. -/
def confirmedOf (events : List Event) : List ℤ :=
  sortedDedup (((events.filter
    (fun e => e.event_type == "alert_confirmed" && decide (0 ≤ e.actor_id))).map
      (fun e => e.actor_id)))

/-- Size of the intersection of malicious and confirmed. -/
def tpOf (events : List Event) : ℕ :=
  ((maliciousOf events).filter (fun a => decide (a ∈ confirmedOf events))).length

/-- Size of confirmed minus malicious. -/
def fpOf (events : List Event) : ℕ :=
  ((confirmedOf events).filter (fun a => decide (a ∉ maliciousOf events))).length

/-- Size of malicious minus confirmed. -/
def fnOf (events : List Event) : ℕ :=
  ((maliciousOf events).filter (fun a => decide (a ∉ confirmedOf events))).length

/-- Guarded precision of eval_from_events. -/
def precOf (events : List Event) : ℚ :=
  if tpOf events + fpOf events = 0 then 0
  else (tpOf events : ℚ) / ((tpOf events : ℚ) + (fpOf events : ℚ))

/-- Guarded recall of eval_from_events. -/
def recOf (events : List Event) : ℚ :=
  if tpOf events + fnOf events = 0 then 0
  else (tpOf events : ℚ) / ((tpOf events : ℚ) + (fnOf events : ℚ))

/-- Guarded F1 of eval_from_events. -/
def f1Of (events : List Event) : ℚ :=
  if precOf events + recOf events = 0 then 0
  else 2 * precOf events * recOf events / (precOf events + recOf events)

/-- First list entry with a malicious label for the given actor, the
setdefault map first_mal_step. -/
def first_mal_step (events : List Event) (a : ℤ) : Option ℕ :=
  (events.find? (fun e =>
    decide (0 ≤ e.actor_id) && e.label == "malicious" && decide (e.actor_id = a))).map
    (fun e => e.step)

/-- First list entry of type alert_confirmed for the given actor, the
setdefault map first_conf_step. -/
def first_conf_step (events : List Event) (a : ℤ) : Option ℕ :=
  (events.find? (fun e =>
    decide (0 ≤ e.actor_id) && e.event_type == "alert_confirmed" &&
      decide (e.actor_id = a))).map (fun e => e.step)

/-- Per-actor detection delays over malicious actors present in both first
occurrence maps. -/
def ttd_values (events : List Event) : List ℤ :=
  (maliciousOf events).filterMap (fun a =>
    match first_conf_step events a, first_mal_step events a with
    | some c, some f => some ((c : ℤ) - (f : ℤ))
    | _, _ => none)

/-- mean_ttd of eval_from_events: none on the empty delay list. -/
def mean_ttd (events : List Event) : Option ℚ :=
  if (ttd_values events).length = 0 then none
  else some ((((ttd_values events).foldl (fun s x => s + x) 0 : ℤ) : ℚ) /
    ((ttd_values events).length : ℚ))

/-- Stable insert for the by-step sort of compute_cps_metrics. -/
def insertByStep (e : Event) : List Event → List Event
  | [] => [e]
  | y :: ys => if y.step < e.step then y :: insertByStep e ys else e :: y :: ys

/-- Stable sort by step of compute_cps_metrics. -/
def sortByStep : List Event → List Event
  | [] => []
  | x :: xs => insertByStep x (sortByStep xs)

/-- The cps_service_state events of one service, ordered by step. -/
def cps_statesOf (events : List Event) (service : String) : List Event :=
  sortByStep (events.filter (fun e =>
    e.event_type == "cps_service_state" && e.meta.service == some service))

/-- Degraded flags of the service state events. -/
def degraded_flags (events : List Event) (service : String) : List Bool :=
  (cps_statesOf events service).map (fun e => (e.meta.degraded).getD false)

/-- sdp of compute_cps_metrics: 1 when any snapshot was degraded. -/
def sdpOf (events : List Event) (service : String) : ℚ :=
  if (degraded_flags events service).any (fun b => b) then 1 else 0

/-- Maximal run lengths of consecutive true flags, with the trailing open
run closed at the end; the durations list of compute_cps_metrics. -/
def durationsAux : List Bool → ℕ → List ℕ
  | [], r => if 0 < r then [r] else []
  | d :: ds, r =>
    if d then durationsAux ds (r + 1)
    else if 0 < r then r :: durationsAux ds 0
    else durationsAux ds 0

/-- avg_degraded_mode_duration of compute_cps_metrics. -/
def avg_durOf (events : List Event) (service : String) : ℚ :=
  let ds := durationsAux (degraded_flags events service) 0
  if ds.length = 0 then 0
  else ((ds.foldl (fun s x => s + x) 0 : ℕ) : ℚ) / (ds.length : ℚ)

/-- One iteration of the severity_by_actor accumulation loop. -/
def sev_body (mmap : ℤ → Option ℚ) (e : Event) : ℤ → Option ℚ :=
  match (e.meta.cause_actor_id).getD none with
  | none => mmap
  | some c =>
    if c < 0 then mmap
    else fun a =>
      if a = c then some (max ((mmap c).getD 0) ((e.meta.severity).getD 0))
      else mmap a

/-- severity_by_actor of compute_cps_metrics: per cause actor, the maximum
severity attributed to it, built left to right with default 0. -/
def severity_by_actor (events : List Event) (service : String) : ℤ → Option ℚ :=
  (cps_statesOf events service).foldl sev_body (fun _ => none)

/-- scenario_by_actor of eval_from_events: last scenario tag seen per
non-negative actor id. -/
def scenario_by_actor (events : List Event) : ℤ → Option String :=
  events.foldl
    (fun mmap e =>
      if 0 ≤ e.actor_id then
        match e.scenario with
        | some s => fun a => if a = e.actor_id then some s else mmap a
        | none => mmap
      else mmap)
    (fun _ => none)

/-- SCENARIO_IMPACT fallback weight table. -/
def SCENARIO_IMPACT (s : String) : Option ℚ :=
  if s = "acct_takeover" then some 1
  else if s = "stealth" then some 0.6
  else if s = "staging_exfil" then some 0.75
  else if s = "exfil" then some 0.8
  else if s = "email_only" then some 0.5
  else none

/-- max of all step fields with default 0, the last_test_step value. -/
def last_test_step (events : List Event) : ℕ :=
  (events.map (fun e => e.step)).foldl max 0

/-- One iteration of the impact-weighted TTD loop. -/
def iw_body (events : List Event) (nd : ℚ × ℚ) (a : ℤ) : ℚ × ℚ :=
  match first_mal_step events a with
  | none => nd
  | some fm =>
    let ttd_i : ℚ :=
      match first_conf_step events a with
      | some fc => (fc : ℚ) - (fm : ℚ)
      | none => (last_test_step events : ℚ) - (fm : ℚ)
    let w_i : ℚ :=
      match severity_by_actor events ("traffic") a with
      | some w => w
      | none => (SCENARIO_IMPACT (((scenario_by_actor events) a).getD "")).getD 0.5
    (nd.1 + w_i * ttd_i, nd.2 + w_i)

/-- Numerator and denominator of the impact-weighted TTD loop. -/
def iwSums (events : List Event) : ℚ × ℚ :=
  (maliciousOf events).foldl (iw_body events) (0, 0)

/-- iw_ttd of eval_from_events: none unless the weight sum is positive. -/
def iw_ttd (events : List Event) : Option ℚ :=
  if 0 < (iwSums events).2 then some ((iwSums events).1 / (iwSums events).2) else none

/-- The metrics record returned by eval_from_events. -/
structure EvalResult where
  num_actors : ℕ
  num_mal_actors : ℕ
  actor_precision : ℚ
  actor_recall : ℚ
  actor_f1 : ℚ
  mean_ttd : Option ℚ
  iw_ttd : Option ℚ
  sdp : ℚ
  avg_degraded_mode_duration : ℚ
  deriving DecidableEq

/-- eval_from_events: filter to the test phase, then assemble every
metric from the filtered log. -/
def eval_from_events (events0 : List Event) : EvalResult :=
  let events := filter_to_test events0
  { num_actors := (actorsOf events).length
    num_mal_actors := (maliciousOf events).length
    actor_precision := precOf events
    actor_recall := recOf events
    actor_f1 := f1Of events
    mean_ttd := mean_ttd events
    iw_ttd := iw_ttd events
    sdp := sdpOf events ("traffic")
    avg_degraded_mode_duration := avg_durOf events ("traffic") }

/-! Sweep driver of run_sweep: the row-collection loop. The pandas
aggregation and file output lie outside the claims and are not modelled. -/

/-- One sweep row keyed by threshold and seed. -/
structure SweepRow where
  threshold : ℤ
  seed : ℕ
  metrics : EvalResult
  deriving DecidableEq

/-- Integer range threshold_min .. threshold_max inclusive, the python
range(threshold_min, threshold_max + 1); empty when max < min. -/
def thresholdRange (tmin tmax : ℤ) : List ℤ :=
  (List.range (tmax + 1 - tmin).toNat).map (fun i => tmin + (i : ℤ))

/-- The nested loop of run_sweep collecting one row per (threshold, seed),
with the simulation passed in as the loaded module entry point (seed,
warmup, test, threshold to event log). -/
def run_sweep_rows (sim : ℕ → ℕ → ℕ → ℤ → List Event)
    (tmin tmax : ℤ) (seeds warmup_steps test_steps : ℕ) : List SweepRow :=
  ((thresholdRange tmin tmax).map (fun th =>
    (List.range seeds).map (fun seed =>
      { threshold := th, seed := seed,
        metrics := eval_from_events (sim seed warmup_steps test_steps th) : SweepRow }))).flatten

/-! Explicit closed form of one simulation step. The following derived
definitions name the events each stage of InsiderModel.step can emit; the
theorem step_eq below proves the step function equal to this form, and
every run-level argument works through it. -/

/-- Phase tag assigned at emission time. -/
def phaseOf (s w : ℕ) : Option String := some (if s < w then "train" else "test")

/-- Background benign auth event. -/
def bgEvt (s w : ℕ) (i : ℤ) : Event :=
  { step := s, event_type := "auth", actor_id := i, resource := "vpn",
    action := "login", label := "benign", scenario := none, phase := phaseOf s w,
    meta := {} }

/-- Events the background loop emits for the given id list, one draw per
id starting at stream index r. -/
def bg_events (ρ : ℕ → ℚ) : ℕ → ℕ → ℕ → List ℕ → List Event
  | _, _, _, [] => []
  | r, s, w, i :: is =>
    (if ρ r < 0.2 then [bgEvt s w (i : ℤ)] else []) ++ bg_events ρ (r + 1) s w is

/-- After-hours login event of the account-takeover scenario. -/
def acctAuthEvt (s w : ℕ) (uid : ℤ) : Event :=
  { step := s, event_type := "auth", actor_id := uid, resource := "admin_console",
    action := "after_hours_login", label := "malicious",
    scenario := some ("acct_takeover"), phase := phaseOf s w, meta := {} }

/-- Timing-plan push command of the account-takeover scenario. -/
def acctPushEvt (s w : ℕ) (uid : ℤ) : Event :=
  { step := s, event_type := "cps_command", actor_id := uid,
    resource := "traffic_corridor_A", action := "PUSH_TIMING_PLAN",
    label := "malicious", scenario := some ("acct_takeover"), phase := phaseOf s w,
    meta := { service := some ("traffic"), cmd := some ("PUSH_TIMING_PLAN"),
              severity_inc := some 0.85, isUnsafe := some true } }

/-- Suspicious query event of the stealth scenario. -/
def stealthDbEvt (s w : ℕ) (uid : ℤ) : Event :=
  { step := s, event_type := "db_query", actor_id := uid, resource := "citizen_db",
    action := "suspicious_query", label := "malicious",
    scenario := some ("stealth"), phase := phaseOf s w, meta := {} }

/-- Offset tweak command of the stealth scenario. -/
def stealthTweakEvt (s w : ℕ) (uid : ℤ) : Event :=
  { step := s, event_type := "cps_command", actor_id := uid,
    resource := "traffic_corridor_A", action := "TWEAK_OFFSET",
    label := "malicious", scenario := some ("stealth"), phase := phaseOf s w,
    meta := { service := some ("traffic"), cmd := some ("TWEAK_OFFSET"),
              severity_inc := some 0.03 } }

/-- Zip batch event of the staging-exfil scenario. -/
def stagingEvt (s w : ℕ) (uid : ℤ) : Event :=
  { step := s, event_type := "file_access", actor_id := uid, resource := "share",
    action := "zip_batch", label := "malicious", scenario := some ("staging_exfil"),
    phase := phaseOf s w, meta := {} }

/-- Bulk upload event of the exfil scenario. -/
def exfilEvt (s w : ℕ) (uid : ℤ) : Event :=
  { step := s, event_type := "network", actor_id := uid, resource := "egress",
    action := "bulk_upload", label := "malicious", scenario := some ("exfil"),
    phase := phaseOf s w, meta := {} }

/-- Phishing mail event of the email-only scenario. -/
def emailEvt (s w : ℕ) (uid : ℤ) : Event :=
  { step := s, event_type := "email", actor_id := uid, resource := "mail",
    action := "phish_send", label := "malicious", scenario := some ("email_only"),
    phase := phaseOf s w, meta := {} }

/-- Events of the account-takeover actor, draws at indices r and r+1. -/
def acct_events (ρ : ℕ → ℚ) (r s w : ℕ) (uid : ℤ) : List Event :=
  (if ρ r < 0.20 then [acctAuthEvt s w uid] else []) ++
  (if ρ (r + 1) < 0.12 then [acctPushEvt s w uid] else [])

/-- Events of the stealth actor, draws at indices r and r+1. -/
def stealth_events (ρ : ℕ → ℚ) (r s w : ℕ) (uid : ℤ) : List Event :=
  (if ρ r < 0.07 then [stealthDbEvt s w uid] else []) ++
  (if ρ (r + 1) < 0.10 then [stealthTweakEvt s w uid] else [])

/-- Events of the staging-exfil actor, one draw at index r. -/
def staging_events (ρ : ℕ → ℚ) (r s w : ℕ) (uid : ℤ) : List Event :=
  if ρ r < 0.09 then [stagingEvt s w uid] else []

/-- Events of the exfil actor, one draw at index r. -/
def exfil_events (ρ : ℕ → ℚ) (r s w : ℕ) (uid : ℤ) : List Event :=
  if ρ r < 0.11 then [exfilEvt s w uid] else []

/-- Events of the email-only actor, one draw at index r. -/
def email_events (ρ : ℕ → ℚ) (r s w : ℕ) (uid : ℤ) : List Event :=
  if ρ r < 0.08 then [emailEvt s w uid] else []

/-- Events of the five attackers of one step, draws at indices r..r+6. -/
def attacker_events (ρ : ℕ → ℚ) (r s w : ℕ) : List Event :=
  acct_events ρ r s w 0 ++ stealth_events ρ (r + 2) s w 1 ++
  staging_events ρ (r + 4) s w 2 ++ exfil_events ρ (r + 5) s w 3 ++
  email_events ρ (r + 6) s w 4

/-- Step buffer content right before the twin update: background events
(draws r..r+6) then attacker events (draws r+7..r+13). -/
def buf1 (ρ : ℕ → ℚ) (r s w : ℕ) : List Event :=
  bg_events ρ r s w (List.range' 5 7) ++ attacker_events ρ (r + 7) s w

/-- Twin accumulator after the decay and the scan of buffer b. -/
def twin_sc (t : TrafficTwin) (b : List Event) : ℚ × Option ℤ :=
  b.foldl (twin_apply t.degrade_threshold) (max 0 (t.severity - 0.015), t.cause_actor_id)

/-- Twin state after one update over buffer b. -/
def twin_after (t : TrafficTwin) (b : List Event) : TrafficTwin :=
  { t with severity := (twin_sc t b).1,
           degraded := decide (t.degrade_threshold ≤ (twin_sc t b).1),
           cause_actor_id := (twin_sc t b).2 }

/-- Service state snapshot event emitted by the twin over buffer b. -/
def svcEvt (s w : ℕ) (t : TrafficTwin) (b : List Event) : Event :=
  { step := s, event_type := "cps_service_state", actor_id := -1,
    resource := "traffic_corridor_A", action := "service_state",
    label := "benign", scenario := none, phase := phaseOf s w,
    meta := { service := some t.service,
              degraded := some (decide (t.degrade_threshold ≤ (twin_sc t b).1)),
              severity := some (round4 (twin_sc t b).1),
              cause_actor_id := some (twin_sc t b).2 } }

/-- Step buffer content right before the monitor. -/
def buf2 (ρ : ℕ → ℚ) (r s w : ℕ) (t : TrafficTwin) : List Event :=
  buf1 ρ r s w ++ [svcEvt s w t (buf1 ρ r s w)]

/-- One confirmation event. -/
def mkAlert (s w : ℕ) (a : ℤ) : Event :=
  { step := s, event_type := "alert_confirmed", actor_id := a, resource := "siem",
    action := "confirm", label := "benign", scenario := none, phase := phaseOf s w,
    meta := {} }

/-- Confirmation events the monitor emits over buffer b. -/
def alert_events (s w : ℕ) (th : ℤ) (b : List Event) : List Event :=
  if th ≤ ((b.filter isSuspicious).length : ℤ) then
    (sortedDedup ((b.filter isSuspicious).map (fun e => e.actor_id))).map (mkAlert s w)
  else []

/-- Step buffer content right after the monitor. -/
def buf3 (ρ : ℕ → ℚ) (r s w : ℕ) (th : ℤ) (t : TrafficTwin) : List Event :=
  buf2 ρ r s w t ++ alert_events s w th (buf2 ρ r s w t)

/-- Synthetic rollback command event. -/
def rollbackEvt (s w : ℕ) : Event :=
  { step := s, event_type := "cps_command", actor_id := -1,
    resource := "traffic_corridor_A", action := "ROLLBACK_PLAN", label := "benign",
    scenario := none, phase := phaseOf s w,
    meta := { service := some ("traffic"), cmd := some ("ROLLBACK_PLAN") } }

/-- Rollback event list, nonempty exactly when buffer b holds an alert. -/
def rollback_events (s w : ℕ) (b : List Event) : List Event :=
  if b.any (fun e => e.event_type == "alert_confirmed") then [rollbackEvt s w] else []

/-- All events one step emits, as a function of the stream window
starting at r, the step index s, the warmup bound w, the threshold and
the incoming twin state. -/
def step_events (ρ : ℕ → ℚ) (r s w : ℕ) (th : ℤ) (t : TrafficTwin) : List Event :=
  buf3 ρ r s w th t ++ rollback_events s w (buf3 ρ r s w th t)

/-- Signed count of suspicious events in the step buffer, the quantity
the monitor compares against the threshold. -/
def suspiciousCount (m : InsiderModel) : ℤ :=
  ((m.action_events.filter isSuspicious).length : ℤ)

/-- Idle twin state: severity fully decayed, not degraded, with a
remembered cause actor. -/
def tQ (c : Option ℤ) : TrafficTwin :=
  { service := "traffic", degrade_threshold := 0.25, severity := 0,
    degraded := false, cause_actor_id := c }

/-- Service snapshot emitted by an idle twin on a step without commands. -/
def quietEvt (s w : ℕ) (c : Option ℤ) : Event :=
  { step := s, event_type := "cps_service_state", actor_id := -1,
    resource := "traffic_corridor_A", action := "service_state",
    label := "benign", scenario := none, phase := phaseOf s w,
    meta := { service := some ("traffic"), degraded := some false,
              severity := some 0, cause_actor_id := some c } }

/-- Cause actor values the twin can legitimately hold: absent or one of
the five attacker ids. -/
def OKCause (c : Option ℤ) : Prop :=
  c = none ∨ ∃ a, c = some a ∧ 0 ≤ a ∧ a ≤ 4

/-- Shape of any command event an attacker can emit: a timing-plan push
with increment 0.85 or an offset tweak with increment 0.03, from one of
the five attacker ids. -/
def CmdShape (e : Event) : Prop :=
  e.event_type = "cps_command" →
    0 ≤ e.actor_id ∧ e.actor_id ≤ 4 ∧
    ((e.meta.cmd = some ("PUSH_TIMING_PLAN") ∧ e.meta.severity_inc = some 0.85) ∨
     (e.meta.cmd = some ("TWEAK_OFFSET") ∧ e.meta.severity_inc = some 0.03))

/-- Stream for the two-step counterexample runs: at step 0 both
account-takeover draws and both stealth draws succeed (four malicious
events from the two actors 0 and 1), every other draw fails. -/
def rhoA : ℕ → ℚ := fun n => if n = 7 ∨ n = 8 ∨ n = 9 ∨ n = 10 then 0 else 0.99

/-- Stream of the first counterexample run: every draw fails its
Bernoulli test except draw 853, the email draw of step 60. -/
def rhoB : ℕ → ℚ := fun n => if n = 853 then 0 else 0.99

/-- Stream of the second counterexample run: at step 60 the draws of
every attacker rule except the timing-plan push succeed, producing six
malicious events in a single step. -/
def rhoC : ℕ → ℚ := fun n =>
  if n = 847 ∨ n = 849 ∨ n = 850 ∨ n = 851 ∨ n = 852 ∨ n = 853 then 0 else 0.99

/-! Stage lemmas: each stage of the step function in explicit form. -/

theorem emit_action_eq (m : InsiderModel) (e : Event) :
    emit_action m e =
      { m with
        action_events := m.action_events ++ [tag_phase m e]
        events := m.events ++ [tag_phase m e] } := rfl

theorem bg_fold_eq (ρ : ℕ → ℚ) (ids : List ℕ) (m : InsiderModel) :
    ids.foldl
      (fun m (actor_id : ℕ) =>
        let rm := draw ρ m
        if rm.1 < 0.2 then
          emit_action rm.2
            { step := rm.2.step_idx, event_type := "auth", actor_id := (actor_id : ℤ),
              resource := "vpn", action := "login", label := "benign" }
        else rm.2) m =
    { m with
      rng_idx := m.rng_idx + ids.length
      events := m.events ++ bg_events ρ m.rng_idx m.step_idx m.warmup_steps ids
      action_events :=
        m.action_events ++ bg_events ρ m.rng_idx m.step_idx m.warmup_steps ids } := by
  induction ids generalizing m with
  | nil => simp [bg_events]
  | cons i is ih =>
    rcases m with ⟨r, th, w, ts, s, ev, ae, tw⟩
    rw [List.foldl_cons, ih]
    by_cases h : ρ r < 0.2 <;>
      simp [draw, emit_action_eq, h, bg_events, bgEvt, tag_phase, phaseOf,
        List.append_assoc, List.length_cons] <;> omega

theorem bg_eq (ρ : ℕ → ℚ) (m : InsiderModel) :
    emit_benign_background ρ m =
    { m with
      rng_idx := m.rng_idx + 7
      events := m.events ++ bg_events ρ m.rng_idx m.step_idx m.warmup_steps (List.range' 5 7)
      action_events :=
        m.action_events ++ bg_events ρ m.rng_idx m.step_idx m.warmup_steps (List.range' 5 7) } := by
  rw [emit_benign_background, bg_fold_eq]
  simp

theorem act_acct_eq (ρ : ℕ → ℚ) (uid : ℤ) (m : InsiderModel) :
    MaliciousInsider.act ρ uid ("acct_takeover") m =
    { m with
      rng_idx := m.rng_idx + 2
      events := m.events ++ acct_events ρ m.rng_idx m.step_idx m.warmup_steps uid
      action_events :=
        m.action_events ++ acct_events ρ m.rng_idx m.step_idx m.warmup_steps uid } := by
  rcases m with ⟨r, th, w, ts, s, ev, ae, tw⟩
  by_cases h1 : ρ r < 0.20 <;> by_cases h2 : ρ (r + 1) < 0.12 <;>
    simp [MaliciousInsider.act, draw, h1, h2, emit_action_eq, acct_events,
      acctAuthEvt, acctPushEvt, tag_phase, phaseOf, List.append_assoc]

theorem act_stealth_eq (ρ : ℕ → ℚ) (uid : ℤ) (m : InsiderModel) :
    MaliciousInsider.act ρ uid ("stealth") m =
    { m with
      rng_idx := m.rng_idx + 2
      events := m.events ++ stealth_events ρ m.rng_idx m.step_idx m.warmup_steps uid
      action_events :=
        m.action_events ++ stealth_events ρ m.rng_idx m.step_idx m.warmup_steps uid } := by
  rcases m with ⟨r, th, w, ts, s, ev, ae, tw⟩
  by_cases h1 : ρ r < 0.07 <;> by_cases h2 : ρ (r + 1) < 0.10 <;>
    simp [MaliciousInsider.act, draw, h1, h2, emit_action_eq, stealth_events,
      stealthDbEvt, stealthTweakEvt, tag_phase, phaseOf, List.append_assoc]

theorem act_staging_eq (ρ : ℕ → ℚ) (uid : ℤ) (m : InsiderModel) :
    MaliciousInsider.act ρ uid ("staging_exfil") m =
    { m with
      rng_idx := m.rng_idx + 1
      events := m.events ++ staging_events ρ m.rng_idx m.step_idx m.warmup_steps uid
      action_events :=
        m.action_events ++ staging_events ρ m.rng_idx m.step_idx m.warmup_steps uid } := by
  rcases m with ⟨r, th, w, ts, s, ev, ae, tw⟩
  by_cases h1 : ρ r < 0.09 <;>
    simp [MaliciousInsider.act, draw, h1, emit_action_eq, staging_events,
      stagingEvt, tag_phase, phaseOf, List.append_assoc]

theorem act_exfil_eq (ρ : ℕ → ℚ) (uid : ℤ) (m : InsiderModel) :
    MaliciousInsider.act ρ uid ("exfil") m =
    { m with
      rng_idx := m.rng_idx + 1
      events := m.events ++ exfil_events ρ m.rng_idx m.step_idx m.warmup_steps uid
      action_events :=
        m.action_events ++ exfil_events ρ m.rng_idx m.step_idx m.warmup_steps uid } := by
  rcases m with ⟨r, th, w, ts, s, ev, ae, tw⟩
  by_cases h1 : ρ r < 0.11 <;>
    simp [MaliciousInsider.act, draw, h1, emit_action_eq, exfil_events,
      exfilEvt, tag_phase, phaseOf, List.append_assoc]

theorem act_email_eq (ρ : ℕ → ℚ) (uid : ℤ) (m : InsiderModel) :
    MaliciousInsider.act ρ uid ("email_only") m =
    { m with
      rng_idx := m.rng_idx + 1
      events := m.events ++ email_events ρ m.rng_idx m.step_idx m.warmup_steps uid
      action_events :=
        m.action_events ++ email_events ρ m.rng_idx m.step_idx m.warmup_steps uid } := by
  rcases m with ⟨r, th, w, ts, s, ev, ae, tw⟩
  by_cases h1 : ρ r < 0.08 <;>
    simp [MaliciousInsider.act, draw, h1, emit_action_eq, email_events,
      emailEvt, tag_phase, phaseOf, List.append_assoc]

theorem actorsAct_eq (ρ : ℕ → ℚ) (m : InsiderModel) :
    actorsAct ρ m =
    { m with
      rng_idx := m.rng_idx + 7
      events := m.events ++ attacker_events ρ m.rng_idx m.step_idx m.warmup_steps
      action_events :=
        m.action_events ++ attacker_events ρ m.rng_idx m.step_idx m.warmup_steps } := by
  rcases m with ⟨r, th, w, ts, s, ev, ae, tw⟩
  simp only [actorsAct, attackers, List.foldl_cons, List.foldl_nil]
  rw [act_acct_eq, act_stealth_eq, act_staging_eq, act_exfil_eq, act_email_eq]
  simp [attacker_events, List.append_assoc]

theorem twin_step_eq (m : InsiderModel) :
    TrafficTwin.step m =
    { m with
      traffic_twin := twin_after m.traffic_twin m.action_events
      events := m.events ++
        [svcEvt m.step_idx m.warmup_steps m.traffic_twin m.action_events]
      action_events := m.action_events ++
        [svcEvt m.step_idx m.warmup_steps m.traffic_twin m.action_events] } := rfl

theorem alert_fold_eq (l : List ℤ) (m : InsiderModel) :
    l.foldl
      (fun m a =>
        emit_action m
          { step := m.step_idx, event_type := "alert_confirmed", actor_id := a,
            resource := "siem", action := "confirm", label := "benign" }) m =
    { m with
      events := m.events ++ l.map (mkAlert m.step_idx m.warmup_steps)
      action_events := m.action_events ++ l.map (mkAlert m.step_idx m.warmup_steps) } := by
  induction l generalizing m with
  | nil => simp
  | cons a as ih =>
    rcases m with ⟨r, th, w, ts, s, ev, ae, tw⟩
    simp only [List.foldl_cons]
    rw [emit_action_eq, ih]
    simp [mkAlert, tag_phase, phaseOf, List.append_assoc]

theorem run_monitors_eq (m : InsiderModel) :
    run_monitors m =
    { m with
      events := m.events ++
        alert_events m.step_idx m.warmup_steps m.threshold m.action_events
      action_events := m.action_events ++
        alert_events m.step_idx m.warmup_steps m.threshold m.action_events } := by
  rcases m with ⟨r, th, w, ts, s, ev, ae, tw⟩
  simp only [run_monitors, alert_events]
  by_cases h : th ≤ ((ae.filter isSuspicious).length : ℤ)
  · rw [if_pos h, if_pos h, alert_fold_eq]
  · rw [if_neg h, if_neg h]
    simp

/-- Explicit form of the conditional rollback emission at the end of one
step. -/
theorem rollback_stage_eq (m : InsiderModel) :
    (if m.action_events.any (fun e => e.event_type == "alert_confirmed") then
      emit_action m
        { step := m.step_idx, event_type := "cps_command", actor_id := -1,
          resource := "traffic_corridor_A", action := "ROLLBACK_PLAN",
          label := "benign",
          meta := { service := some ("traffic"), cmd := some ("ROLLBACK_PLAN") } }
    else m) =
    { m with
      events := m.events ++ rollback_events m.step_idx m.warmup_steps m.action_events
      action_events :=
        m.action_events ++ rollback_events m.step_idx m.warmup_steps m.action_events } := by
  rcases m with ⟨r, th, w, ts, s, ev, ae, tw⟩
  by_cases h : ae.any (fun e => e.event_type == "alert_confirmed") <;>
    simp [rollback_events, h, emit_action_eq, rollbackEvt, tag_phase, phaseOf,
      List.append_assoc]

/-- The step function of the model in fully explicit form. -/
theorem step_eq (ρ : ℕ → ℚ) (m : InsiderModel) :
    InsiderModel.step ρ m =
    { m with
      rng_idx := m.rng_idx + 14
      step_idx := m.step_idx + 1
      events := m.events ++
        step_events ρ m.rng_idx m.step_idx m.warmup_steps m.threshold m.traffic_twin
      action_events :=
        step_events ρ m.rng_idx m.step_idx m.warmup_steps m.threshold m.traffic_twin
      traffic_twin :=
        twin_after m.traffic_twin (buf1 ρ m.rng_idx m.step_idx m.warmup_steps) } := by
  rcases m with ⟨r, th, w, ts, s, ev, ae, tw⟩
  simp only [InsiderModel.step, pre_monitor, pre_twin, clear_buffer]
  rw [bg_eq, actorsAct_eq, twin_step_eq, run_monitors_eq, rollback_stage_eq]
  simp [step_events, buf3, buf2, buf1, List.append_assoc]

/-! Generic lemmas on the helper list functions. -/

theorem mem_ite_singleton {α : Type} {c : Prop} [Decidable c] {x e : α}
    (h : e ∈ (if c then [x] else [])) : e = x ∧ c := by
  by_cases hc : c
  · rw [if_pos hc] at h
    simp at h
    exact ⟨h, hc⟩
  · rw [if_neg hc] at h
    simp at h

theorem mem_insertSortedNoDup (a b : ℤ) (l : List ℤ) :
    a ∈ insertSortedNoDup b l ↔ a = b ∨ a ∈ l := by
  induction l with
  | nil => simp [insertSortedNoDup]
  | cons c t ih =>
    by_cases h1 : b < c
    · simp [insertSortedNoDup, if_pos h1]
    · by_cases h2 : b = c
      · subst h2
        simp [insertSortedNoDup, if_neg h1]
      · simp [insertSortedNoDup, if_neg h1, if_neg h2, ih]
        tauto

theorem mem_sortedDedup (a : ℤ) (l : List ℤ) : a ∈ sortedDedup l ↔ a ∈ l := by
  induction l with
  | nil => simp [sortedDedup]
  | cons c t ih =>
    simp only [sortedDedup, List.foldr_cons] at ih ⊢
    rw [mem_insertSortedNoDup, ih, List.mem_cons]

theorem sorted_insertSortedNoDup (a : ℤ) (l : List ℤ)
    (h : List.Sorted (· < ·) l) :
    List.Sorted (· < ·) (insertSortedNoDup a l) := by
  induction l with
  | nil => simp [insertSortedNoDup]
  | cons c t ih =>
    rcases (List.sorted_cons.1 h) with ⟨hc, ht⟩
    by_cases h1 : a < c
    · rw [insertSortedNoDup, if_pos h1]
      refine List.sorted_cons.2 ⟨?_, h⟩
      intro x hx
      rcases List.mem_cons.1 hx with rfl | hx
      · exact h1
      · exact h1.trans (hc x hx)
    · by_cases h2 : a = c
      · rw [insertSortedNoDup, if_neg h1, if_pos h2]
        exact h
      · rw [insertSortedNoDup, if_neg h1, if_neg h2]
        refine List.sorted_cons.2 ⟨?_, ih ht⟩
        intro x hx
        rcases (mem_insertSortedNoDup x a t).1 hx with rfl | hx
        · omega
        · exact hc x hx

theorem sorted_sortedDedup (l : List ℤ) : List.Sorted (· < ·) (sortedDedup l) := by
  induction l with
  | nil => simp [sortedDedup]
  | cons c t ih => exact sorted_insertSortedNoDup c (sortedDedup t) ih

theorem nodup_sortedDedup (l : List ℤ) : (sortedDedup l).Nodup :=
  (sorted_sortedDedup l).nodup

theorem sortedDedup_ne_nil (a : ℤ) (l : List ℤ) (h : a ∈ l) :
    sortedDedup l ≠ [] := by
  intro hnil
  have := (mem_sortedDedup a l).2 h
  rw [hnil] at this
  simp at this

theorem mem_insertByStep (e x : Event) (l : List Event) :
    e ∈ insertByStep x l ↔ e = x ∨ e ∈ l := by
  induction l with
  | nil => simp [insertByStep]
  | cons y ys ih =>
    by_cases h : y.step < x.step
    · simp [insertByStep, if_pos h, ih]
      tauto
    · simp [insertByStep, if_neg h]

theorem mem_sortByStep (e : Event) (l : List Event) :
    e ∈ sortByStep l ↔ e ∈ l := by
  induction l with
  | nil => simp [sortByStep]
  | cons x xs ih =>
    simp only [sortByStep]
    rw [mem_insertByStep, ih, List.mem_cons]

/-! Membership facts for the explicit step event lists. -/

theorem mem_bg_events (ρ : ℕ → ℚ) (r s w : ℕ) (ids : List ℕ) (e : Event)
    (h : e ∈ bg_events ρ r s w ids) : ∃ i : ℕ, e = bgEvt s w (i : ℤ) := by
  induction ids generalizing r with
  | nil => simp [bg_events] at h
  | cons i is ih =>
    rw [bg_events] at h
    rcases List.mem_append.1 h with h1 | h2
    · exact ⟨i, (mem_ite_singleton h1).1⟩
    · exact ih (r + 1) h2

theorem mem_attacker_events (ρ : ℕ → ℚ) (r s w : ℕ) (e : Event)
    (h : e ∈ attacker_events ρ r s w) :
    ∃ uid : ℤ, 0 ≤ uid ∧ uid ≤ 4 ∧
      (e = acctAuthEvt s w uid ∨ e = acctPushEvt s w uid ∨
       e = stealthDbEvt s w uid ∨ e = stealthTweakEvt s w uid ∨
       e = stagingEvt s w uid ∨ e = exfilEvt s w uid ∨ e = emailEvt s w uid) := by
  simp only [attacker_events, acct_events, stealth_events, staging_events,
    exfil_events, email_events, List.append_assoc, List.mem_append] at h
  rcases h with h | h | h | h | h | h | h
  · exact ⟨0, by norm_num, by norm_num, Or.inl (mem_ite_singleton h).1⟩
  · exact ⟨0, by norm_num, by norm_num, Or.inr (Or.inl (mem_ite_singleton h).1)⟩
  · exact ⟨1, by norm_num, by norm_num,
      Or.inr (Or.inr (Or.inl (mem_ite_singleton h).1))⟩
  · exact ⟨1, by norm_num, by norm_num,
      Or.inr (Or.inr (Or.inr (Or.inl (mem_ite_singleton h).1)))⟩
  · exact ⟨2, by norm_num, by norm_num,
      Or.inr (Or.inr (Or.inr (Or.inr (Or.inl (mem_ite_singleton h).1))))⟩
  · exact ⟨3, by norm_num, by norm_num,
      Or.inr (Or.inr (Or.inr (Or.inr (Or.inr (Or.inl (mem_ite_singleton h).1)))))⟩
  · exact ⟨4, by norm_num, by norm_num,
      Or.inr (Or.inr (Or.inr (Or.inr (Or.inr (Or.inr (mem_ite_singleton h).1)))))⟩

/-- Every event the background and attacker stages put into the step
buffer: its bookkeeping fields, and the exact shape of any command
event. -/
theorem mem_buf1 (ρ : ℕ → ℚ) (r s w : ℕ) (e : Event) (h : e ∈ buf1 ρ r s w) :
    e.step = s ∧ e.phase = phaseOf s w ∧
    e.event_type ≠ "alert_confirmed" ∧ e.event_type ≠ "cps_service_state" ∧
    e.meta.cause_actor_id = none ∧
    (e.event_type = "cps_command" →
      0 ≤ e.actor_id ∧ e.actor_id ≤ 4 ∧
      ((e.meta.cmd = some ("PUSH_TIMING_PLAN") ∧ e.meta.severity_inc = some 0.85) ∨
       (e.meta.cmd = some ("TWEAK_OFFSET") ∧ e.meta.severity_inc = some 0.03))) := by
  rcases List.mem_append.1 h with h1 | h2
  · obtain ⟨i, rfl⟩ := mem_bg_events ρ r s w _ e h1
    simp [bgEvt]
  · obtain ⟨uid, h0, h4, hcase⟩ := mem_attacker_events ρ (r + 7) s w e h2
    rcases hcase with rfl | rfl | rfl | rfl | rfl | rfl | rfl <;>
      simp [acctAuthEvt, acctPushEvt, stealthDbEvt, stealthTweakEvt, stagingEvt,
        exfilEvt, emailEvt, h0, h4]

theorem mem_alert_events (s w : ℕ) (th : ℤ) (b : List Event) (e : Event)
    (h : e ∈ alert_events s w th b) :
    ∃ a : ℤ, e = mkAlert s w a ∧ th ≤ ((b.filter isSuspicious).length : ℤ) ∧
      ∃ x ∈ b, isSuspicious x = true ∧ x.actor_id = a := by
  rw [alert_events] at h
  by_cases hc : th ≤ ((b.filter isSuspicious).length : ℤ)
  · rw [if_pos hc] at h
    obtain ⟨a, ha, rfl⟩ := List.mem_map.1 h
    have ha2 := (mem_sortedDedup a _).1 ha
    obtain ⟨x, hx, hxa⟩ := List.mem_map.1 ha2
    exact ⟨a, rfl, hc, x, (List.mem_filter.1 hx).1, (List.mem_filter.1 hx).2, hxa⟩
  · rw [if_neg hc] at h
    simp at h

theorem mem_rollback_events (s w : ℕ) (b : List Event) (e : Event)
    (h : e ∈ rollback_events s w b) : e = rollbackEvt s w := by
  rw [rollback_events] at h
  exact (mem_ite_singleton h).1

/-- Bookkeeping fields of every event one step emits. -/
theorem mem_step_events (ρ : ℕ → ℚ) (r s w : ℕ) (th : ℤ) (t : TrafficTwin)
    (e : Event) (h : e ∈ step_events ρ r s w th t) :
    e.step = s ∧ e.phase = phaseOf s w := by
  rcases List.mem_append.1 h with h3 | hr
  · rcases List.mem_append.1 h3 with h2 | ha
    · rcases List.mem_append.1 h2 with h1 | hs
      · have := mem_buf1 ρ r s w e h1
        exact ⟨this.1, this.2.1⟩
      · have : e = svcEvt s w t (buf1 ρ r s w) := by simpa using hs
        subst this
        simp [svcEvt]
    · obtain ⟨a, rfl, _⟩ := mem_alert_events s w th _ e ha
      simp [mkAlert]
  · have := mem_rollback_events s w _ e hr
    subst this
    simp [rollbackEvt]

/-! Iterate-level bookkeeping. -/

theorem iterate_proj (ρ : ℕ → ℚ) (n : ℕ) (m : InsiderModel) :
    ((InsiderModel.step ρ)^[n] m).rng_idx = m.rng_idx + 14 * n ∧
    ((InsiderModel.step ρ)^[n] m).step_idx = m.step_idx + n ∧
    ((InsiderModel.step ρ)^[n] m).threshold = m.threshold ∧
    ((InsiderModel.step ρ)^[n] m).warmup_steps = m.warmup_steps ∧
    ((InsiderModel.step ρ)^[n] m).test_steps = m.test_steps := by
  induction n with
  | zero => simp
  | succ n ih =>
    rw [Function.iterate_succ_apply', step_eq]
    refine ⟨?_, ?_, ?_, ?_, ?_⟩ <;> simp [ih.1, ih.2.1, ih.2.2.1, ih.2.2.2.1,
      ih.2.2.2.2] <;> omega

theorem iterate_events_succ (ρ : ℕ → ℚ) (n : ℕ) (m : InsiderModel) :
    ((InsiderModel.step ρ)^[n + 1] m).events =
      ((InsiderModel.step ρ)^[n] m).events ++
        step_events ρ (m.rng_idx + 14 * n) (m.step_idx + n) m.warmup_steps
          m.threshold ((InsiderModel.step ρ)^[n] m).traffic_twin := by
  rw [Function.iterate_succ_apply', step_eq]
  have h := iterate_proj ρ n m
  rw [h.1, h.2.1, h.2.2.1, h.2.2.2.1]

theorem iterate_events_mono (ρ : ℕ → ℚ) (n : ℕ) (m : InsiderModel) (e : Event)
    (h : e ∈ m.events) : e ∈ ((InsiderModel.step ρ)^[n] m).events := by
  induction n with
  | zero => simpa using h
  | succ n ih =>
    rw [iterate_events_succ]
    exact List.mem_append_left _ ih

/-! Twin update invariants. -/

theorem round4_bounds (q : ℚ) (h0 : 0 ≤ q) (h1 : q ≤ 1) :
    0 ≤ round4 q ∧ round4 q ≤ 1 := by
  unfold round4
  constructor
  · apply div_nonneg _ (by norm_num)
    have h : (0 : ℤ) ≤ round (q * 10000) := by
      rw [round_eq]
      apply Int.le_floor.2
      push_cast
      linarith
    exact_mod_cast h
  · rw [div_le_one (by norm_num)]
    have h : round (q * 10000) ≤ (10000 : ℤ) := by
      rw [round_eq]
      have h2 : (⌊q * 10000 + 1 / 2⌋ : ℤ) ≤ ⌊(10000 : ℚ) + 1 / 2⌋ :=
        Int.floor_le_floor (by linarith)
      have h3 : (⌊(10000 : ℚ) + 1 / 2⌋ : ℤ) = 10000 := by
        norm_num [Int.floor_eq_iff]
      omega
    exact_mod_cast h

theorem twin_apply_inv (thr : ℚ) (sc : ℚ × Option ℤ) (e : Event)
    (hsc : (0 ≤ sc.1 ∧ sc.1 ≤ 1) ∧ OKCause sc.2) (he : CmdShape e) :
    (0 ≤ (twin_apply thr sc e).1 ∧ (twin_apply thr sc e).1 ≤ 1) ∧
      OKCause (twin_apply thr sc e).2 := by
  unfold twin_apply
  by_cases ht : e.event_type ≠ "cps_command"
  · rw [if_pos ht]
    exact hsc
  · rw [if_neg ht]
    push_neg at ht
    obtain ⟨ha0, ha4, hcmd⟩ := he ht
    rcases hcmd with ⟨hc, hi⟩ | ⟨hc, hi⟩
    · rw [if_pos hc, hi]
      simp only [Option.getD_some]
      refine ⟨⟨le_max_of_le_right (by norm_num), max_le hsc.1.2 (by norm_num)⟩, ?_⟩
      by_cases ha : 0 ≤ e.actor_id
      · rw [if_pos ha]
        exact Or.inr ⟨e.actor_id, rfl, ha0, ha4⟩
      · rw [if_neg ha]
        exact hsc.2
    · have hne : ¬ e.meta.cmd = some ("PUSH_TIMING_PLAN") := by simp [hc]
      rw [if_neg hne, if_pos hc, hi]
      simp only [Option.getD_some]
      refine ⟨⟨le_min (by norm_num) (by linarith [hsc.1.1]), min_le_left _ _⟩, ?_⟩
      by_cases ha : 0 ≤ e.actor_id
      · rw [if_pos ha]
        exact Or.inr ⟨e.actor_id, rfl, ha0, ha4⟩
      · rw [if_neg ha]
        exact hsc.2

theorem twin_fold_inv (thr : ℚ) (b : List Event) :
    (∀ e ∈ b, CmdShape e) →
    ∀ sc : ℚ × Option ℤ, (0 ≤ sc.1 ∧ sc.1 ≤ 1) ∧ OKCause sc.2 →
    (0 ≤ (b.foldl (twin_apply thr) sc).1 ∧ (b.foldl (twin_apply thr) sc).1 ≤ 1) ∧
      OKCause (b.foldl (twin_apply thr) sc).2 := by
  induction b with
  | nil =>
    intro _ sc hsc
    simpa using hsc
  | cons e es ih =>
    intro hb sc hsc
    rw [List.foldl_cons]
    exact ih (fun x hx => hb x (List.mem_cons_of_mem e hx)) _
      (twin_apply_inv thr sc e hsc (hb e (List.mem_cons_self e es)))

theorem twin_sc_inv (t : TrafficTwin) (b : List Event)
    (ht : (0 ≤ t.severity ∧ t.severity ≤ 1) ∧ OKCause t.cause_actor_id)
    (hb : ∀ e ∈ b, CmdShape e) :
    (0 ≤ (twin_sc t b).1 ∧ (twin_sc t b).1 ≤ 1) ∧ OKCause (twin_sc t b).2 := by
  unfold twin_sc
  apply twin_fold_inv t.degrade_threshold b hb
  refine ⟨⟨le_max_left _ _, max_le (by norm_num) (by linarith [ht.1.2])⟩, ht.2⟩


theorem buf1_cmdShape (ρ : ℕ → ℚ) (r s w : ℕ) :
    ∀ e ∈ buf1 ρ r s w, CmdShape e :=
  fun e h => (mem_buf1 ρ r s w e h).2.2.2.2.2

/-- Twin evolution along the iterate. -/
theorem iterate_twin_succ (ρ : ℕ → ℚ) (n : ℕ) (m : InsiderModel) :
    ((InsiderModel.step ρ)^[n + 1] m).traffic_twin =
      twin_after ((InsiderModel.step ρ)^[n] m).traffic_twin
        (buf1 ρ (m.rng_idx + 14 * n) (m.step_idx + n) m.warmup_steps) := by
  rw [Function.iterate_succ_apply', step_eq]
  have h := iterate_proj ρ n m
  rw [h.1, h.2.1, h.2.2.2.1]

/-- Per-type dissection: the only service state event a step emits. -/
theorem mem_step_events_svc (ρ : ℕ → ℚ) (r s w : ℕ) (th : ℤ) (t : TrafficTwin)
    (e : Event) (h : e ∈ step_events ρ r s w th t)
    (htype : e.event_type = "cps_service_state") :
    e = svcEvt s w t (buf1 ρ r s w) := by
  rcases List.mem_append.1 h with h3 | hr
  · rcases List.mem_append.1 h3 with h2 | ha
    · rcases List.mem_append.1 h2 with h1 | hs
      · exact absurd htype (mem_buf1 ρ r s w e h1).2.2.2.1
      · simpa using hs
    · obtain ⟨a, rfl, _⟩ := mem_alert_events s w th _ e ha
      simp [mkAlert] at htype
  · have := mem_rollback_events s w _ e hr
    subst this
    simp [rollbackEvt] at htype

/-- Per-type dissection: the confirmation events a step emits. -/
theorem mem_step_events_alert (ρ : ℕ → ℚ) (r s w : ℕ) (th : ℤ) (t : TrafficTwin)
    (e : Event) (h : e ∈ step_events ρ r s w th t)
    (htype : e.event_type = "alert_confirmed") :
    ∃ a : ℤ, e = mkAlert s w a ∧
      th ≤ (((buf2 ρ r s w t).filter isSuspicious).length : ℤ) ∧
      ∃ x ∈ buf2 ρ r s w t, isSuspicious x = true ∧ x.actor_id = a := by
  rcases List.mem_append.1 h with h3 | hr
  · rcases List.mem_append.1 h3 with h2 | ha
    · rcases List.mem_append.1 h2 with h1 | hs
      · exact absurd htype (mem_buf1 ρ r s w e h1).2.2.1
      · have he : e = svcEvt s w t (buf1 ρ r s w) := by simpa using hs
        subst he
        simp [svcEvt] at htype
    · exact mem_alert_events s w th _ e ha
  · have := mem_rollback_events s w _ e hr
    subst this
    simp [rollbackEvt] at htype

/-! Run-level invariants. -/

/-- Severity stays within the unit interval: the twin state and every
emitted snapshot. -/
theorem run_sev_inv (ρ : ℕ → ℚ) (w t : ℕ) (th : ℤ) (k : ℕ) :
    (0 ≤ (stateAfter ρ w t th k).traffic_twin.severity ∧
      (stateAfter ρ w t th k).traffic_twin.severity ≤ 1 ∧
      OKCause (stateAfter ρ w t th k).traffic_twin.cause_actor_id) ∧
    ∀ e ∈ (stateAfter ρ w t th k).events,
      e.event_type = "cps_service_state" →
        (∃ q, e.meta.severity = some q ∧ 0 ≤ q ∧ q ≤ 1) ∧
        (∃ c, e.meta.cause_actor_id = some c ∧ OKCause c) := by
  induction k with
  | zero =>
    refine ⟨⟨?_, ?_, ?_⟩, ?_⟩ <;> simp [stateAfter, initModel, OKCause]
  | succ k ih =>
    have htw := iterate_twin_succ ρ k (initModel w t th)
    have hev := iterate_events_succ ρ k (initModel w t th)
    have hsc := twin_sc_inv (stateAfter ρ w t th k).traffic_twin
      (buf1 ρ ((initModel w t th).rng_idx + 14 * k) ((initModel w t th).step_idx + k)
        (initModel w t th).warmup_steps)
      ⟨⟨ih.1.1, ih.1.2.1⟩, ih.1.2.2⟩ (buf1_cmdShape ρ _ _ _)
    constructor
    · rw [stateAfter, htw]
      exact ⟨hsc.1.1, hsc.1.2, hsc.2⟩
    · intro e he htype
      rw [stateAfter, hev] at he
      rcases List.mem_append.1 he with hold | hnew
      · exact ih.2 e hold htype
      · have := mem_step_events_svc ρ _ _ _ _ _ e hnew htype
        subst this
        refine ⟨⟨round4 (twin_sc (stateAfter ρ w t th k).traffic_twin _).1, rfl, ?_⟩,
          ⟨(twin_sc (stateAfter ρ w t th k).traffic_twin _).2, rfl, hsc.2⟩⟩
        exact round4_bounds _ hsc.1.1 hsc.1.2

/-- Every event of the log carries the phase its own step dictates. -/
theorem run_phase_inv (ρ : ℕ → ℚ) (w t : ℕ) (th : ℤ) (k : ℕ) :
    ∀ e ∈ (stateAfter ρ w t th k).events, e.phase = phaseOf e.step w := by
  induction k with
  | zero =>
    intro e he
    simp [stateAfter, initModel] at he
  | succ k ih =>
    intro e he
    rw [stateAfter, iterate_events_succ] at he
    rcases List.mem_append.1 he with hold | hnew
    · exact ih e hold
    · have := mem_step_events ρ _ _ _ _ _ e hnew
      rw [this.2, this.1]
      simp [initModel]

/-! Chunk decomposition of a run by step index. -/

theorem stateAfter_events_succ (ρ : ℕ → ℚ) (w t : ℕ) (th : ℤ) (k : ℕ) :
    (stateAfter ρ w t th (k + 1)).events =
      (stateAfter ρ w t th k).events ++
        step_events ρ (14 * k) k w th (stateAfter ρ w t th k).traffic_twin := by
  have h := iterate_events_succ ρ k (initModel w t th)
  simpa [stateAfter, initModel] using h

theorem run_steps_lt (ρ : ℕ → ℚ) (w t : ℕ) (th : ℤ) (k : ℕ) :
    ∀ e ∈ (stateAfter ρ w t th k).events, e.step < k := by
  induction k with
  | zero =>
    intro e he
    simp [stateAfter, initModel] at he
  | succ k ih =>
    intro e he
    rw [stateAfter_events_succ] at he
    rcases List.mem_append.1 he with hold | hnew
    · exact (ih e hold).trans (Nat.lt_succ_self k)
    · rw [(mem_step_events ρ _ _ _ _ _ e hnew).1]
      exact Nat.lt_succ_self k

theorem mem_run_step_iff (ρ : ℕ → ℚ) (w t : ℕ) (th : ℤ) (n k : ℕ) (hk : k < n)
    (e : Event) :
    (e ∈ (stateAfter ρ w t th n).events ∧ e.step = k) ↔
      e ∈ step_events ρ (14 * k) k w th (stateAfter ρ w t th k).traffic_twin := by
  induction n with
  | zero => omega
  | succ n ih =>
    rw [stateAfter_events_succ]
    by_cases hkn : k < n
    · constructor
      · rintro ⟨hmem, hstep⟩
        rcases List.mem_append.1 hmem with hold | hnew
        · exact (ih hkn).1 ⟨hold, hstep⟩
        · have := (mem_step_events ρ _ _ _ _ _ e hnew).1
          omega
      · intro h
        have := (ih hkn).2 h
        exact ⟨List.mem_append_left _ this.1, this.2⟩
    · have hkeq : k = n := by omega
      subst hkeq
      constructor
      · rintro ⟨hmem, hstep⟩
        rcases List.mem_append.1 hmem with hold | hnew
        · have := run_steps_lt ρ w t th k e hold
          omega
        · exact hnew
      · intro h
        exact ⟨List.mem_append_right _ h, (mem_step_events ρ _ _ _ _ _ e h).1⟩

/-- The step buffer at the moment the twin update runs. -/
theorem pre_twin_buffer (ρ : ℕ → ℚ) (m : InsiderModel) :
    (pre_twin ρ m).action_events = buf1 ρ m.rng_idx m.step_idx m.warmup_steps := by
  simp only [pre_twin, clear_buffer]
  rw [bg_eq, actorsAct_eq]
  simp [buf1]

/-- The step buffer at the moment the monitor runs. -/
theorem pre_monitor_buffer (ρ : ℕ → ℚ) (m : InsiderModel) :
    (pre_monitor ρ m).action_events =
      buf2 ρ m.rng_idx m.step_idx m.warmup_steps m.traffic_twin := by
  simp only [pre_monitor, pre_twin, clear_buffer]
  rw [bg_eq, actorsAct_eq, twin_step_eq]
  simp [buf2, buf1, List.append_assoc]

/-! Claim theorems: invariants C5, C9, C10. -/

/-- C5: for every run and every emitted cps_service_state event, the
severity value carried in its meta lies in the closed interval from 0 to
1; equivalently the twin severity is within the unit interval after every
update. -/
theorem C5_severity_bound (ρ : ℕ → ℚ) (w t : ℕ) (th : ℤ) (e : Event)
    (h : e ∈ run_simulation ρ w t th)
    (htype : e.event_type = "cps_service_state") :
    ∃ q, e.meta.severity = some q ∧ 0 ≤ q ∧ q ≤ 1 :=
  ((run_sev_inv ρ w t th (w + t)).2 e h htype).1

/-- Concrete instance of the C5 theorem on a one-step run. -/
theorem C5_severity_bound_witness :
    ∃ q, (quietEvt 0 1 none).meta.severity = some q ∧ 0 ≤ q ∧ q ≤ 1 :=
  C5_severity_bound (fun _ => 1) 1 0 4 (quietEvt 0 1 none)
    (by with_unfolding_all decide) (by with_unfolding_all decide)

/-- C9: for every run and every event in the final log, the phase field
equals train exactly when the step is strictly below warmup_steps, and
equals test otherwise. -/
theorem C9_phase_rule (ρ : ℕ → ℚ) (w t : ℕ) (th : ℤ) (e : Event)
    (h : e ∈ run_simulation ρ w t th) :
    (e.phase = some ("train") ↔ e.step < w) ∧
    (e.phase = some ("test") ↔ ¬ e.step < w) := by
  have hp := run_phase_inv ρ w t th (w + t) e h
  rw [hp, phaseOf]
  by_cases hs : e.step < w
  · simp [hs]
  · simp [hs]

/-- Concrete instance of the C9 theorem on a one-step run. -/
theorem C9_phase_rule_witness :
    ((quietEvt 0 1 none).phase = some ("train") ↔ (quietEvt 0 1 none).step < 1) ∧
    ((quietEvt 0 1 none).phase = some ("test") ↔ ¬ (quietEvt 0 1 none).step < 1) :=
  C9_phase_rule (fun _ => 1) 1 0 4 (quietEvt 0 1 none)
    (by with_unfolding_all decide)

/-- C10: every emitted cps_service_state event carries a cause_actor_id
that is either absent or one of the five malicious actor ids 0..4 — never
a background id 5..11 and never the system id -1. -/
theorem C10_cause_actor (ρ : ℕ → ℚ) (w t : ℕ) (th : ℤ) (e : Event)
    (h : e ∈ run_simulation ρ w t th)
    (htype : e.event_type = "cps_service_state") :
    ∃ c, e.meta.cause_actor_id = some c ∧
      (c = none ∨ ∃ a, c = some a ∧ 0 ≤ a ∧ a ≤ 4) :=
  ((run_sev_inv ρ w t th (w + t)).2 e h htype).2

/-- Concrete instance of the C10 theorem on a one-step run. -/
theorem C10_cause_actor_witness :
    ∃ c, (quietEvt 0 1 none).meta.cause_actor_id = some c ∧
      (c = none ∨ ∃ a, c = some a ∧ 0 ≤ a ∧ a ≤ 4) :=
  C10_cause_actor (fun _ => 1) 1 0 4 (quietEvt 0 1 none)
    (by with_unfolding_all decide) (by with_unfolding_all decide)

end CdtMVP

namespace CdtMVP

set_option maxRecDepth 4000 in
/-- C1 counterexample: in the two-step run on the stream rhoA with
threshold 4, the cumulative log at step 0 holds malicious events of only
two distinct actors, strictly below the threshold, so the claimed rule
(distinct malicious actors of the whole log so far vs the threshold)
forbids any confirmation at step 0; the code nevertheless emits
alert_confirmed events at step 0, because the monitor actually counts
malicious events of the current step buffer with multiplicity. -/
theorem C1_counterexample :
    ¬ ((4 : ℤ) ≤ (((sortedDedup (((run_simulation rhoA 2 0 4).filter
        (fun e => isSuspicious e && decide (e.step ≤ 0))).map
          (fun e => e.actor_id))).length : ℤ))) ∧
    (run_simulation rhoA 2 0 4).filter
      (fun e => e.event_type == "alert_confirmed" && decide (e.step = 0)) ≠ [] := by
  with_unfolding_all decide

set_option maxRecDepth 4000 in
/-- C2 counterexample: on the same run, actor 0 appears in an
alert_confirmed event at step 0, the run lasts through step 1, and no
alert_confirmed event at all is emitted at step 1 — confirmation is not
monotone. -/
theorem C2_counterexample :
    (run_simulation rhoA 2 0 4).filter
      (fun e => e.event_type == "alert_confirmed" && decide (e.step = 0) &&
        decide (e.actor_id = 0)) ≠ [] ∧
    (run_simulation rhoA 2 0 4).filter
      (fun e => e.event_type == "alert_confirmed" && decide (e.step = 1)) = [] ∧
    ∀ e ∈ run_simulation rhoA 2 0 4, e.step ≤ 1 := by
  with_unfolding_all decide

set_option maxRecDepth 4000 in
/-- C3 counterexample: on the same run, alert_confirmed events and the
synthetic ROLLBACK_PLAN command are both emitted at step 0, the service
snapshot of step 0 carries severity 0.88, yet the snapshot of step 1
carries severity 0.865 = 0.88 - 0.015 (pure decay): the claimed further
reduction by 0.3 at step 1 does not happen, because the rollback command
is dropped with the step buffer before the next twin update. -/
theorem C3_counterexample :
    (run_simulation rhoA 2 0 4).filter
      (fun e => e.event_type == "alert_confirmed" && decide (e.step = 0)) ≠ [] ∧
    (run_simulation rhoA 2 0 4).filter
      (fun e => e.event_type == "cps_command" && e.action == "ROLLBACK_PLAN" &&
        decide (e.actor_id = -1) && decide (e.step = 0)) ≠ [] ∧
    ((run_simulation rhoA 2 0 4).filter
      (fun e => e.event_type == "cps_service_state" && decide (e.step = 0))).map
        (fun e => e.meta.severity) = [some 0.88] ∧
    ((run_simulation rhoA 2 0 4).filter
      (fun e => e.event_type == "cps_service_state" && decide (e.step = 1))).map
        (fun e => e.meta.severity) = [some 0.865] ∧
    (0.865 : ℚ) ≠ 0.88 - 0.015 - 0.3 := by
  with_unfolding_all decide

end CdtMVP

namespace CdtMVP

/-- C1 amended: the monitor is evaluated against the current step buffer
only, counting malicious-labeled events with non-negative actor id with
multiplicity; when that count reaches the threshold it emits exactly one
alert_confirmed event per distinct such actor of the buffer (ascending),
appended identically to the buffer and to the cumulative log, and emits
nothing otherwise. -/
theorem C1_amended (m : InsiderModel) :
    (run_monitors m).events =
      m.events ++ alert_events m.step_idx m.warmup_steps m.threshold m.action_events ∧
    (run_monitors m).action_events =
      m.action_events ++ alert_events m.step_idx m.warmup_steps m.threshold m.action_events ∧
    (∀ a : ℤ,
      (∃ e ∈ alert_events m.step_idx m.warmup_steps m.threshold m.action_events,
        e.actor_id = a) ↔
      (m.threshold ≤ suspiciousCount m ∧
        ∃ e ∈ m.action_events, isSuspicious e = true ∧ e.actor_id = a)) ∧
    (alert_events m.step_idx m.warmup_steps m.threshold m.action_events).Pairwise
      (fun e1 e2 => e1.actor_id ≠ e2.actor_id) := by
  refine ⟨(run_monitors_eq m).symm ▸ rfl, ?_, ?_, ?_⟩
  · rw [run_monitors_eq]
  · intro a
    constructor
    · rintro ⟨e, he, rfl⟩
      obtain ⟨a, rfl, hth, x, hx, hsx, hxa⟩ :=
        mem_alert_events m.step_idx m.warmup_steps m.threshold m.action_events e he
      exact ⟨hth, x, hx, hsx, by simp [mkAlert, hxa]⟩
    · rintro ⟨hth, x, hx, hsx, rfl⟩
      refine ⟨mkAlert m.step_idx m.warmup_steps x.actor_id, ?_, rfl⟩
      rw [alert_events, if_pos (show m.threshold ≤
        (((m.action_events.filter isSuspicious).length : ℕ) : ℤ) from hth)]
      exact List.mem_map_of_mem _ ((mem_sortedDedup _ _).2
        (List.mem_map_of_mem _ (List.mem_filter.2 ⟨hx, hsx⟩)))
  · rw [alert_events]
    by_cases hth : m.threshold ≤
        (((m.action_events.filter isSuspicious).length : ℕ) : ℤ)
    · rw [if_pos hth]
      exact List.Pairwise.map _
        (fun a b hab => by simp only [mkAlert]; omega)
        (sorted_sortedDedup _)
    · rw [if_neg hth]
      simp

/-- Concrete instance of the C1 amended theorem. -/
theorem C1_amended_witness :
    (run_monitors (initModel 1 0 4)).events =
      (initModel 1 0 4).events ++
        alert_events (initModel 1 0 4).step_idx (initModel 1 0 4).warmup_steps
          (initModel 1 0 4).threshold (initModel 1 0 4).action_events :=
  (C1_amended (initModel 1 0 4)).1

/-- C2 amended: confirmation is not persistent. For every run and step k,
an actor a appears in an alert_confirmed event at step k exactly when the
buffer of step k itself (at the moment the monitor runs) holds at least
threshold-many malicious events and one of them belongs to a; an
appearance at one step implies nothing at later steps. -/
theorem C2_amended (ρ : ℕ → ℚ) (w t : ℕ) (th : ℤ) (k : ℕ) (hk : k < w + t)
    (a : ℤ) :
    (∃ e ∈ run_simulation ρ w t th,
      e.event_type = "alert_confirmed" ∧ e.step = k ∧ e.actor_id = a) ↔
    (th ≤ suspiciousCount (pre_monitor ρ (stateAfter ρ w t th k)) ∧
      ∃ e ∈ (pre_monitor ρ (stateAfter ρ w t th k)).action_events,
        isSuspicious e = true ∧ e.actor_id = a) := by
  have hproj := iterate_proj ρ k (initModel w t th)
  have hbuf : (pre_monitor ρ (stateAfter ρ w t th k)).action_events =
      buf2 ρ (14 * k) k w (stateAfter ρ w t th k).traffic_twin := by
    rw [pre_monitor_buffer]
    have h1 : (stateAfter ρ w t th k).rng_idx = 14 * k := by
      simpa [stateAfter, initModel] using hproj.1
    have h2 : (stateAfter ρ w t th k).step_idx = k := by
      simpa [stateAfter, initModel] using hproj.2.1
    have h3 : (stateAfter ρ w t th k).warmup_steps = w := by
      simpa [stateAfter, initModel] using hproj.2.2.2.1
    rw [h1, h2, h3]
  constructor
  · rintro ⟨e, he, htype, hstep, hact⟩
    have hchunk := (mem_run_step_iff ρ w t th (w + t) k hk e).1 ⟨he, hstep⟩
    obtain ⟨a2, rfl, hth, x, hx, hsx, hxa⟩ :=
      mem_step_events_alert ρ (14 * k) k w th _ e hchunk htype
    rw [suspiciousCount, hbuf]
    have hae : a2 = a := by simpa [mkAlert] using hact
    subst hae
    exact ⟨hth, x, hx, hsx, hxa⟩
  · rintro ⟨hth, x, hx, hsx, hxa⟩
    rw [hbuf] at hx
    rw [suspiciousCount, hbuf] at hth
    refine ⟨mkAlert k w a, ?_, by simp [mkAlert], by simp [mkAlert], by simp [mkAlert]⟩
    apply ((mem_run_step_iff ρ w t th (w + t) k hk _).2 ?_).1
    apply List.mem_append_left
    apply List.mem_append_right
    rw [alert_events, if_pos hth]
    apply List.mem_map_of_mem
    apply (mem_sortedDedup _ _).2
    rw [← hxa]
    exact List.mem_map_of_mem _ (List.mem_filter.2 ⟨hx, hsx⟩)

/-- Concrete instance of the C2 amended theorem: on the two-step
counterexample run, actor 0 satisfies both sides at step 0. -/
theorem C2_amended_witness :
    (∃ e ∈ run_simulation rhoA 2 0 4,
      e.event_type = "alert_confirmed" ∧ e.step = 0 ∧ e.actor_id = 0) ↔
    ((4 : ℤ) ≤ suspiciousCount (pre_monitor rhoA (stateAfter rhoA 2 0 4 0)) ∧
      ∃ e ∈ (pre_monitor rhoA (stateAfter rhoA 2 0 4 0)).action_events,
        isSuspicious e = true ∧ e.actor_id = 0) :=
  C2_amended rhoA 2 0 4 0 (by omega) 0

end CdtMVP

namespace CdtMVP

/-- C3 amended: whenever an alert_confirmed event is produced at step s, a
synthetic ROLLBACK_PLAN cps_command event with actor_id -1 is appended at
the same step s, but the rollback is never consumed by the twin: at every
step of every run the buffer the twin update scans contains no
ROLLBACK_PLAN command, so the 0.3 severity reduction never occurs — the
per-step buffer is discarded before the next update. -/
theorem C3_amended :
    (∀ (ρ : ℕ → ℚ) (w t : ℕ) (th : ℤ) (s : ℕ),
      (∃ e ∈ run_simulation ρ w t th,
        e.event_type = "alert_confirmed" ∧ e.step = s) →
      ∃ e ∈ run_simulation ρ w t th,
        e.event_type = "cps_command" ∧ e.action = "ROLLBACK_PLAN" ∧
        e.actor_id = -1 ∧ e.step = s) ∧
    (∀ (ρ : ℕ → ℚ) (m : InsiderModel),
      ∀ e ∈ (pre_twin ρ m).action_events,
        e.event_type = "cps_command" → e.meta.cmd ≠ some ("ROLLBACK_PLAN")) := by
  constructor
  · rintro ρ w t th s ⟨e, he, htype, hstep⟩
    have hs : s < w + t := by
      have := run_steps_lt ρ w t th (w + t) e he
      omega
    have hchunk := (mem_run_step_iff ρ w t th (w + t) s hs e).1 ⟨he, hstep⟩
    have halert : e ∈ buf3 ρ (14 * s) s w th (stateAfter ρ w t th s).traffic_twin := by
      rcases List.mem_append.1 hchunk with h3 | hr
      · exact h3
      · have := mem_rollback_events s w _ e hr
        subst this
        simp [rollbackEvt] at htype
    have hany : (buf3 ρ (14 * s) s w th
        (stateAfter ρ w t th s).traffic_twin).any
          (fun e => e.event_type == "alert_confirmed") = true := by
      apply List.any_eq_true.2
      exact ⟨e, halert, by simp [htype]⟩
    refine ⟨rollbackEvt s w, ?_, by simp [rollbackEvt], by simp [rollbackEvt],
      by simp [rollbackEvt], by simp [rollbackEvt]⟩
    apply ((mem_run_step_iff ρ w t th (w + t) s hs _).2 ?_).1
    apply List.mem_append_right
    rw [rollback_events, if_pos hany]
    simp
  · intro ρ m e he htype
    rw [pre_twin_buffer] at he
    obtain ⟨_, _, hcmd⟩ := (mem_buf1 _ _ _ _ e he).2.2.2.2.2 htype
    rcases hcmd with ⟨hc, _⟩ | ⟨hc, _⟩ <;> simp [hc]

set_option maxRecDepth 4000 in
/-- Concrete instance of the C3 amended theorem: on the two-step
counterexample run an alert at step 0 yields the rollback event at step
0, and the twin buffer of the first step holds no rollback command. -/
theorem C3_amended_witness :
    (∃ e ∈ run_simulation rhoA 2 0 4,
      e.event_type = "cps_command" ∧ e.action = "ROLLBACK_PLAN" ∧
      e.actor_id = -1 ∧ e.step = 0) ∧
    (∀ e ∈ (pre_twin rhoA (initModel 2 0 4)).action_events,
      e.event_type = "cps_command" → e.meta.cmd ≠ some ("ROLLBACK_PLAN")) :=
  ⟨C3_amended.1 rhoA 2 0 4 0
      ⟨mkAlert 0 2 0, by with_unfolding_all decide, by with_unfolding_all decide,
        by with_unfolding_all decide⟩,
    C3_amended.2 rhoA (initModel 2 0 4)⟩

end CdtMVP

namespace CdtMVP

theorem nodup_maliciousOf (events : List Event) : (maliciousOf events).Nodup :=
  nodup_sortedDedup _

theorem nodup_confirmedOf (events : List Event) : (confirmedOf events).Nodup :=
  nodup_sortedDedup _

/-- Counting an intersection of duplicate-free lists from either side
gives the same number. -/
theorem filter_mem_length_comm (l1 l2 : List ℤ) (h1 : l1.Nodup) (h2 : l2.Nodup) :
    (l1.filter (fun a => decide (a ∈ l2))).length =
    (l2.filter (fun a => decide (a ∈ l1))).length := by
  have e1 : (l1.filter (fun a => decide (a ∈ l2))).toFinset =
      l1.toFinset ∩ l2.toFinset := by
    ext a
    simp [List.mem_filter]
  have e2 : (l2.filter (fun a => decide (a ∈ l1))).toFinset =
      l2.toFinset ∩ l1.toFinset := by
    ext a
    simp [List.mem_filter]
  calc (l1.filter (fun a => decide (a ∈ l2))).length
      = (l1.filter (fun a => decide (a ∈ l2))).toFinset.card :=
        (List.toFinset_card_of_nodup (h1.filter _)).symm
    _ = (l1.toFinset ∩ l2.toFinset).card := by rw [e1]
    _ = (l2.toFinset ∩ l1.toFinset).card := by rw [Finset.inter_comm]
    _ = (l2.filter (fun a => decide (a ∈ l1))).toFinset.card := by rw [e2]
    _ = (l2.filter (fun a => decide (a ∈ l1))).length :=
        List.toFinset_card_of_nodup (h2.filter _)

theorem tp_add_fp (events : List Event) :
    tpOf events + fpOf events = (confirmedOf events).length := by
  rw [tpOf, fpOf,
    filter_mem_length_comm _ _ (nodup_maliciousOf events) (nodup_confirmedOf events)]
  have hc : (confirmedOf events).filter (fun a => decide (a ∉ maliciousOf events)) =
      (confirmedOf events).filter
        (fun a => !(decide (a ∈ maliciousOf events))) := by
    apply List.filter_congr
    intro a _
    simp
  rw [hc]
  exact (List.length_eq_length_filter_add
    (fun a => decide (a ∈ maliciousOf events))).symm

theorem tp_add_fn (events : List Event) :
    tpOf events + fnOf events = (maliciousOf events).length := by
  rw [tpOf, fnOf]
  have hc : (maliciousOf events).filter (fun a => decide (a ∉ confirmedOf events)) =
      (maliciousOf events).filter
        (fun a => !(decide (a ∈ confirmedOf events))) := by
    apply List.filter_congr
    intro a _
    simp
  rw [hc]
  exact (List.length_eq_length_filter_add
    (fun a => decide (a ∈ confirmedOf events))).symm

theorem precOf_eq (events : List Event) :
    precOf events = (tpOf events : ℚ) / ((confirmedOf events).length : ℚ) := by
  rw [precOf]
  by_cases h : tpOf events + fpOf events = 0
  · rw [if_pos h]
    have : (confirmedOf events).length = 0 := by rw [← tp_add_fp]; omega
    rw [this]
    norm_num
  · rw [if_neg h]
    have : (((confirmedOf events).length : ℕ) : ℚ) =
        (tpOf events : ℚ) + (fpOf events : ℚ) := by
      rw [← tp_add_fp]
      push_cast
      ring
    rw [this]

theorem recOf_eq (events : List Event) :
    recOf events = (tpOf events : ℚ) / ((maliciousOf events).length : ℚ) := by
  rw [recOf]
  by_cases h : tpOf events + fnOf events = 0
  · rw [if_pos h]
    have : (maliciousOf events).length = 0 := by rw [← tp_add_fn]; omega
    rw [this]
    norm_num
  · rw [if_neg h]
    have : (((maliciousOf events).length : ℕ) : ℚ) =
        (tpOf events : ℚ) + (fnOf events : ℚ) := by
      rw [← tp_add_fn]
      push_cast
      ring
    rw [this]

theorem precOf_nonneg (events : List Event) : 0 ≤ precOf events := by
  rw [precOf_eq]
  positivity

theorem recOf_nonneg (events : List Event) : 0 ≤ recOf events := by
  rw [recOf_eq]
  positivity

theorem precOf_eq_zero_iff (events : List Event) :
    precOf events = 0 ↔ tpOf events = 0 := by
  rw [precOf_eq]
  constructor
  · intro h
    rcases div_eq_zero_iff.1 h with h0 | h0
    · exact_mod_cast h0
    · have hlen : (confirmedOf events).length = 0 := by exact_mod_cast h0
      have := tp_add_fp events
      omega
  · intro h
    rw [h]
    norm_num

theorem recOf_eq_zero_iff (events : List Event) :
    recOf events = 0 ↔ tpOf events = 0 := by
  rw [recOf_eq]
  constructor
  · intro h
    rcases div_eq_zero_iff.1 h with h0 | h0
    · exact_mod_cast h0
    · have hlen : (maliciousOf events).length = 0 := by exact_mod_cast h0
      have := tp_add_fn events
      omega
  · intro h
    rw [h]
    norm_num

/-- C6: the evaluator computes precision as intersection size over
confirmed size (0 on an empty confirmed set), recall as intersection size
over malicious size (0 on an empty malicious set), F1 as the harmonic
combination, which is 0 exactly when the true-positive count is 0 or the
precision-recall sum is 0; with rational division all three are total, so
no division error can arise. -/
theorem C6_metric_guards (events0 : List Event) :
    (eval_from_events events0).actor_precision =
      (tpOf (filter_to_test events0) : ℚ) /
        ((confirmedOf (filter_to_test events0)).length : ℚ) ∧
    (confirmedOf (filter_to_test events0) = [] →
      (eval_from_events events0).actor_precision = 0) ∧
    (eval_from_events events0).actor_recall =
      (tpOf (filter_to_test events0) : ℚ) /
        ((maliciousOf (filter_to_test events0)).length : ℚ) ∧
    (maliciousOf (filter_to_test events0) = [] →
      (eval_from_events events0).actor_recall = 0) ∧
    (eval_from_events events0).actor_f1 =
      2 * precOf (filter_to_test events0) * recOf (filter_to_test events0) /
        (precOf (filter_to_test events0) + recOf (filter_to_test events0)) ∧
    ((eval_from_events events0).actor_f1 = 0 ↔
      tpOf (filter_to_test events0) = 0 ∨
      precOf (filter_to_test events0) + recOf (filter_to_test events0) = 0) := by
  have hp : (eval_from_events events0).actor_precision =
      precOf (filter_to_test events0) := rfl
  have hr : (eval_from_events events0).actor_recall =
      recOf (filter_to_test events0) := rfl
  have hf : (eval_from_events events0).actor_f1 =
      f1Of (filter_to_test events0) := rfl
  set es := filter_to_test events0 with hes
  refine ⟨hp.trans (precOf_eq es), ?_, hr.trans (recOf_eq es), ?_, ?_, ?_⟩
  · intro hempty
    rw [hp, precOf_eq es, hempty]
    norm_num
  · intro hempty
    rw [hr, recOf_eq es, hempty]
    norm_num
  · rw [hf, f1Of]
    by_cases h : precOf es + recOf es = 0
    · rw [if_pos h, h]
      norm_num
    · rw [if_neg h]
  · rw [hf, f1Of]
    by_cases h : precOf es + recOf es = 0
    · rw [if_pos h]
      simp [h]
    · rw [if_neg h]
      constructor
      · intro h0
        rcases div_eq_zero_iff.1 h0 with h1 | h1
        · have h2 : precOf es = 0 ∨ recOf es = 0 := by
            rcases mul_eq_zero.1 h1 with h3 | h3
            · rcases mul_eq_zero.1 h3 with h4 | h4
              · norm_num at h4
              · exact Or.inl h4
            · exact Or.inr h3
          rcases h2 with h3 | h3
          · exact Or.inl ((precOf_eq_zero_iff es).1 h3)
          · exact Or.inl ((recOf_eq_zero_iff es).1 h3)
        · exact absurd h1 h
      · rintro (h0 | h0)
        · have hp0 : precOf es = 0 := (precOf_eq_zero_iff es).2 h0
          rw [hp0]
          ring_nf
        · exact absurd h0 h

/-- Concrete instance of the C6 theorem on the empty log. -/
theorem C6_metric_guards_witness :
    (eval_from_events ([] : List Event)).actor_precision =
      (tpOf (filter_to_test []) : ℚ) /
        ((confirmedOf (filter_to_test [])).length : ℚ) ∧
    (confirmedOf (filter_to_test ([] : List Event)) = [] →
      (eval_from_events ([] : List Event)).actor_precision = 0) ∧
    (eval_from_events ([] : List Event)).actor_recall =
      (tpOf (filter_to_test []) : ℚ) /
        ((maliciousOf (filter_to_test [])).length : ℚ) ∧
    (maliciousOf (filter_to_test ([] : List Event)) = [] →
      (eval_from_events ([] : List Event)).actor_recall = 0) ∧
    (eval_from_events ([] : List Event)).actor_f1 =
      2 * precOf (filter_to_test []) * recOf (filter_to_test []) /
        (precOf (filter_to_test []) + recOf (filter_to_test [])) ∧
    ((eval_from_events ([] : List Event)).actor_f1 = 0 ↔
      tpOf (filter_to_test []) = 0 ∨
      precOf (filter_to_test []) + recOf (filter_to_test []) = 0) :=
  C6_metric_guards []

end CdtMVP

namespace CdtMVP

/-- C7: a run is a pure function of its configuration and random stream.
Two runs whose streams agree on every draw index produce element-for-
element identical event logs and identical metrics; the stream is the
image of the seed, so identical (seed, warmup, test, threshold) give
identical outputs. -/
theorem C7_determinism (ρ1 ρ2 : ℕ → ℚ) (w t : ℕ) (th : ℤ)
    (h : ∀ n, ρ1 n = ρ2 n) :
    run_simulation ρ1 w t th = run_simulation ρ2 w t th ∧
    eval_from_events (run_simulation ρ1 w t th) =
      eval_from_events (run_simulation ρ2 w t th) := by
  have he : ρ1 = ρ2 := funext h
  subst he
  exact ⟨rfl, rfl⟩

/-- Concrete instance of the C7 theorem at the default configuration. -/
theorem C7_determinism_witness :
    run_simulation (fun _ => 1) 60 240 4 = run_simulation (fun _ => 1) 60 240 4 ∧
    eval_from_events (run_simulation (fun _ => 1) 60 240 4) =
      eval_from_events (run_simulation (fun _ => 1) 60 240 4) :=
  C7_determinism (fun _ => 1) (fun _ => 1) 60 240 4 (fun _ => rfl)

/-- C8 counterexample: invoked with threshold_max 3 strictly below
threshold_min 5, the sweep loop runs zero times and returns the empty row
list — no InvalidRange failure exists anywhere in run_sweep. -/
theorem C8_counterexample :
    run_sweep_rows (fun _ _ _ _ => []) 5 3 10 60 240 = [] := by
  rfl

/-- C8 amended: whenever threshold_max is strictly below threshold_min
the sweep silently produces an empty row list, for every simulation
entry point and seed count, because the inclusive integer range is
empty; no error is raised. -/
theorem C8_amended (sim : ℕ → ℕ → ℕ → ℤ → List Event) (tmin tmax : ℤ)
    (seeds w t : ℕ) (h : tmax < tmin) :
    run_sweep_rows sim tmin tmax seeds w t = [] := by
  rw [run_sweep_rows, thresholdRange]
  have h0 : (tmax + 1 - tmin).toNat = 0 := by omega
  rw [h0]
  simp

/-- Concrete instance of the C8 amended theorem. -/
theorem C8_amended_witness :
    run_sweep_rows (fun _ _ _ _ => []) 7 2 3 60 240 = [] :=
  C8_amended (fun _ _ _ _ => []) 7 2 3 60 240 (by omega)

end CdtMVP

namespace CdtMVP

/-- On a step where every draw fails its test, no background or attacker
event is emitted. -/
theorem quiet_buf1 (ρ : ℕ → ℚ) (r s w : ℕ)
    (h : ∀ j, j < 14 → ¬ ρ (r + j) < 0.2) : buf1 ρ r s w = [] := by
  have g : ∀ j, j < 14 → ∀ p : ℚ, p ≤ 0.2 → ¬ ρ (r + j) < p := by
    intro j hj p hp hlt
    exact h j hj (lt_of_lt_of_le hlt hp)
  have h0 : ¬ ρ r < 0.2 := by simpa using h 0 (by norm_num)
  have h1 : ¬ ρ (r + 1) < 0.2 := h 1 (by norm_num)
  have h2 : ¬ ρ (r + 2) < 0.2 := h 2 (by norm_num)
  have h3 : ¬ ρ (r + 3) < 0.2 := h 3 (by norm_num)
  have h4 : ¬ ρ (r + 4) < 0.2 := h 4 (by norm_num)
  have h5 : ¬ ρ (r + 5) < 0.2 := h 5 (by norm_num)
  have h6 : ¬ ρ (r + 6) < 0.2 := h 6 (by norm_num)
  have h7 : ¬ ρ (r + 7) < 0.20 := g 7 (by norm_num) 0.20 (by norm_num)
  have h8 : ¬ ρ (r + 7 + 1) < 0.12 := by
    simpa [Nat.add_assoc] using g 8 (by norm_num) 0.12 (by norm_num)
  have h9 : ¬ ρ (r + 9) < 0.07 := g 9 (by norm_num) 0.07 (by norm_num)
  have h10 : ¬ ρ (r + 9 + 1) < 0.10 := by
    simpa [Nat.add_assoc] using g 10 (by norm_num) 0.10 (by norm_num)
  have h11 : ¬ ρ (r + 11) < 0.09 := g 11 (by norm_num) 0.09 (by norm_num)
  have h12 : ¬ ρ (r + 12) < 0.11 := g 12 (by norm_num) 0.11 (by norm_num)
  have h13 : ¬ ρ (r + 13) < 0.08 := g 13 (by norm_num) 0.08 (by norm_num)
  rw [buf1]
  have hbg : bg_events ρ r s w (List.range' 5 7) = [] := by
    simp [List.range', bg_events, h0, h1, h2, h3, h4, h5, h6]
  have hatt : attacker_events ρ (r + 7) s w = [] := by
    have e9 : r + 7 + 2 = r + 9 := by omega
    have e11 : r + 7 + 4 = r + 11 := by omega
    have e12 : r + 7 + 5 = r + 12 := by omega
    have e13 : r + 7 + 6 = r + 13 := by omega
    rw [attacker_events, e9, e11, e12, e13]
    simp [acct_events, stealth_events, staging_events, exfil_events, email_events,
      h7, h8, h9, h10, h11, h12, h13]
  rw [hbg, hatt]
  rfl

/-- An idle twin stays idle over an empty command buffer. -/
theorem tQ_decay (c : Option ℤ) : twin_after (tQ c) [] = tQ c := by
  have hsc : twin_sc (tQ c) [] = (0, c) := by
    rw [twin_sc, tQ]
    simp
    norm_num
  rw [twin_after, hsc, tQ]
  simp
  norm_num

/-- The twin stays idle along any stretch of steps whose draws all fail. -/
theorem quiet_twin_iterate (ρ : ℕ → ℚ) (m : InsiderModel) (n : ℕ) (c : Option ℤ)
    (h : ∀ j, j < 14 * n → ¬ ρ (m.rng_idx + j) < 0.2)
    (htw : m.traffic_twin = tQ c) :
    ((InsiderModel.step ρ)^[n] m).traffic_twin = tQ c := by
  induction n with
  | zero => simpa using htw
  | succ n ih =>
    have ihh := ih (fun j hj => h j (by omega))
    rw [iterate_twin_succ, ihh]
    have hq : buf1 ρ (m.rng_idx + 14 * n) (m.step_idx + n) m.warmup_steps = [] := by
      apply quiet_buf1
      intro j hj
      have := h (14 * n + j) (by omega)
      simpa [Nat.add_assoc] using this
    rw [hq, tQ_decay]

end CdtMVP

namespace CdtMVP

theorem rhoB_twin60 : (stateAfter rhoB 60 240 6 60).traffic_twin = tQ none := by
  apply quiet_twin_iterate rhoB (initModel 60 240 6) 60 none
  · intro j hj
    show ¬ rhoB ((initModel 60 240 6).rng_idx + j) < 0.2
    have : (initModel 60 240 6).rng_idx + j = j := by simp [initModel]
    rw [this, rhoB, if_neg (by omega : ¬ j = 853)]
    norm_num
  · rfl

theorem rhoC_twin60 : (stateAfter rhoC 60 240 6 60).traffic_twin = tQ none := by
  apply quiet_twin_iterate rhoC (initModel 60 240 6) 60 none
  · intro j hj
    show ¬ rhoC ((initModel 60 240 6).rng_idx + j) < 0.2
    have : (initModel 60 240 6).rng_idx + j = j := by simp [initModel]
    rw [this, rhoC, if_neg (by omega)]
    norm_num
  · rfl

set_option maxRecDepth 4000 in
theorem rhoB_step60_events :
    step_events rhoB 840 60 60 6 (tQ none) =
      [emailEvt 60 60 4, quietEvt 60 60 none] := by
  with_unfolding_all decide

theorem rhoB_email_mem :
    emailEvt 60 60 4 ∈ step_events rhoB 840 60 60 6 (tQ none) := by
  rw [rhoB_step60_events]
  exact List.mem_cons_self _ _

set_option maxRecDepth 4000 in
theorem rhoC_alert_mem :
    mkAlert 60 60 0 ∈ step_events rhoC 840 60 60 6 (tQ none) := by
  apply List.mem_append_left
  apply List.mem_append_right
  rw [alert_events,
    if_pos (show (6 : ℤ) ≤
      (((buf2 rhoC 840 60 60 (tQ none)).filter isSuspicious).length : ℤ) by
        with_unfolding_all decide)]
  apply List.mem_map_of_mem (f := mkAlert 60 60)
  apply (mem_sortedDedup _ _).2
  show (0 : ℤ) ∈ ((buf2 rhoC 840 60 60 (tQ none)).filter isSuspicious).map
    (fun e => e.actor_id)
  with_unfolding_all decide

/-- The run log is the final-state log; kept as an equation so concrete
membership proofs rewrite instead of forcing the kernel to evaluate the
full iterate. -/
theorem run_simulation_events (ρ : ℕ → ℚ) (w t : ℕ) (th : ℤ) :
    run_simulation ρ w t th = (stateAfter ρ w t th (w + t)).events := rfl

theorem rhoB_email_in_run : emailEvt 60 60 4 ∈ run_simulation rhoB 60 240 6 := by
  rw [run_simulation_events]
  refine And.left ((mem_run_step_iff rhoB 60 240 6 (60 + 240) 60 (by omega) _).2 ?_)
  have h60 : (14 * 60 : ℕ) = 840 := by norm_num
  rw [h60, rhoB_twin60]
  exact rhoB_email_mem

theorem rhoC_alert_in_run : mkAlert 60 60 0 ∈ run_simulation rhoC 60 240 6 := by
  rw [run_simulation_events]
  refine And.left ((mem_run_step_iff rhoC 60 240 6 (60 + 240) 60 (by omega) _).2 ?_)
  have h60 : (14 * 60 : ℕ) = 840 := by norm_num
  rw [h60, rhoC_twin60]
  exact rhoC_alert_mem

theorem rhoC_confirmed_ne_nil :
    confirmedOf (filter_to_test (run_simulation rhoC 60 240 6)) ≠ [] := by
  apply List.ne_nil_of_mem (a := (0 : ℤ))
  apply (mem_sortedDedup _ _).2
  apply List.mem_map_of_mem (f := fun e => e.actor_id)
    (a := mkAlert 60 60 0)
  apply List.mem_filter.2
  refine ⟨List.mem_filter.2 ⟨rhoC_alert_in_run, ?_⟩, ?_⟩
  · show ((mkAlert 60 60 0).phase == some ("test")) = true
    with_unfolding_all decide
  · show ((mkAlert 60 60 0).event_type == "alert_confirmed" &&
      decide (0 ≤ (mkAlert 60 60 0).actor_id)) = true
    with_unfolding_all decide

end CdtMVP

namespace CdtMVP

/-- When neither command draw of the step fires, the pre-twin buffer
holds no command event at all. -/
theorem nocmd_buf1 (ρ : ℕ → ℚ) (r s w : ℕ)
    (h8 : ¬ ρ (r + 7 + 1) < 0.12) (h10 : ¬ ρ (r + 7 + 2 + 1) < 0.10) :
    ∀ e ∈ buf1 ρ r s w, e.event_type ≠ "cps_command" := by
  intro e he
  rcases List.mem_append.1 he with hbg | hatt
  · obtain ⟨i, rfl⟩ := mem_bg_events ρ r s w _ e hbg
    simp [bgEvt]
  · simp only [attacker_events, List.mem_append] at hatt
    rcases hatt with ((((h | h) | h) | h) | h)
    · rw [acct_events, if_neg h8] at h
      simp only [List.append_nil] at h
      obtain ⟨rfl, _⟩ := mem_ite_singleton h
      simp [acctAuthEvt]
    · rw [stealth_events, if_neg h10] at h
      simp only [List.append_nil] at h
      obtain ⟨rfl, _⟩ := mem_ite_singleton h
      simp [stealthDbEvt]
    · obtain ⟨rfl, _⟩ := mem_ite_singleton h
      simp [stagingEvt]
    · obtain ⟨rfl, _⟩ := mem_ite_singleton h
      simp [exfilEvt]
    · obtain ⟨rfl, _⟩ := mem_ite_singleton h
      simp [emailEvt]

/-- A buffer without command events leaves the twin accumulator at pure
decay with the cause unchanged. -/
theorem twin_sc_no_cmd (t : TrafficTwin) (b : List Event)
    (h : ∀ e ∈ b, e.event_type ≠ "cps_command") :
    twin_sc t b = (max 0 (t.severity - 0.015), t.cause_actor_id) := by
  rw [twin_sc]
  have haux : ∀ (l : List Event), (∀ e ∈ l, e.event_type ≠ "cps_command") →
      ∀ sc : ℚ × Option ℤ, l.foldl (twin_apply t.degrade_threshold) sc = sc := by
    intro l
    induction l with
    | nil => intro _ sc; rfl
    | cons e es ih =>
      intro hl sc
      rw [List.foldl_cons]
      have he : twin_apply t.degrade_threshold sc e = sc := by
        rw [twin_apply, if_pos (hl e (List.mem_cons_self e es))]
      rw [he]
      exact ih (fun x hx => hl x (List.mem_cons_of_mem e hx)) sc
  exact haux b h _

theorem stateAfter_twin_succ (ρ : ℕ → ℚ) (w t : ℕ) (th : ℤ) (k : ℕ) :
    (stateAfter ρ w t th (k + 1)).traffic_twin =
      twin_after (stateAfter ρ w t th k).traffic_twin (buf1 ρ (14 * k) k w) := by
  have h := iterate_twin_succ ρ k (initModel w t th)
  simpa [stateAfter, initModel] using h

/-- Along the first counterexample run no command event is ever emitted,
so the twin cause stays empty and every event of the log carries an
absent cause field. -/
theorem rhoB_cause_inv (k : ℕ) :
    (∀ e ∈ (stateAfter rhoB 60 240 6 k).events,
      (e.meta.cause_actor_id).getD none = none) ∧
    (stateAfter rhoB 60 240 6 k).traffic_twin.cause_actor_id = none := by
  induction k with
  | zero =>
    constructor
    · intro e he
      simp [stateAfter, initModel] at he
    · simp [stateAfter, initModel]
  | succ k ih =>
    have hnc : ∀ e ∈ buf1 rhoB (14 * k) k 60, e.event_type ≠ "cps_command" := by
      apply nocmd_buf1
      · rw [rhoB, if_neg (by omega)]
        norm_num
      · rw [rhoB, if_neg (by omega)]
        norm_num
    have hsc := twin_sc_no_cmd (stateAfter rhoB 60 240 6 k).traffic_twin
      (buf1 rhoB (14 * k) k 60) hnc
    constructor
    · intro e he
      rw [stateAfter_events_succ] at he
      rcases List.mem_append.1 he with hold | hnew
      · exact ih.1 e hold
      · rcases List.mem_append.1 hnew with h3 | hr
        · rcases List.mem_append.1 h3 with h2 | ha
          · rcases List.mem_append.1 h2 with h1 | hs
            · rw [(mem_buf1 rhoB (14 * k) k 60 e h1).2.2.2.2.1]
              rfl
            · have he2 : e = svcEvt k 60 (stateAfter rhoB 60 240 6 k).traffic_twin
                  (buf1 rhoB (14 * k) k 60) := by simpa using hs
              subst he2
              simp only [svcEvt, Option.getD_some]
              rw [hsc]
              exact ih.2
          · obtain ⟨a, rfl, _⟩ := mem_alert_events k 60 6 _ e ha
            simp [mkAlert]
        · have := mem_rollback_events k 60 _ e hr
          subst this
          simp [rollbackEvt]
    · rw [stateAfter_twin_succ, twin_after, hsc]
      exact ih.2

end CdtMVP

namespace CdtMVP

/-- If no event of the log attributes a cause, the per-actor severity map
stays empty. -/
theorem severity_by_actor_none (l : List Event) (srv : String)
    (h : ∀ e ∈ l, (e.meta.cause_actor_id).getD none = none) (a : ℤ) :
    severity_by_actor l srv a = none := by
  rw [severity_by_actor]
  have hall : ∀ e ∈ cps_statesOf l srv, (e.meta.cause_actor_id).getD none = none := by
    intro e he
    exact h e (List.mem_filter.1 ((mem_sortByStep e _).1 he)).1
  have haux : ∀ (lst : List Event),
      (∀ e ∈ lst, (e.meta.cause_actor_id).getD none = none) →
      ∀ mm : ℤ → Option ℚ, lst.foldl sev_body mm = mm := by
    intro lst
    induction lst with
    | nil => intro _ mm; rfl
    | cons e es ih =>
      intro hl mm
      rw [List.foldl_cons]
      have he : sev_body mm e = mm := by
        rw [sev_body, hl e (List.mem_cons_self e es)]
      rw [he]
      exact ih (fun x hx => hl x (List.mem_cons_of_mem e hx)) mm
  rw [haux _ hall]

theorem scenario_impact_pos (s : String) : 0 < (SCENARIO_IMPACT s).getD 0.5 := by
  rw [SCENARIO_IMPACT]
  split_ifs <;> norm_num

/-- Every malicious actor has a recorded first malicious step. -/
theorem maliciousOf_first_mal (l : List Event) (a : ℤ) (h : a ∈ maliciousOf l) :
    ∃ s, first_mal_step l a = some s := by
  rw [maliciousOf] at h
  obtain ⟨e, hef, hea⟩ := List.mem_map.1 ((mem_sortedDedup a _).1 h)
  have hmem := (List.mem_filter.1 hef).1
  have hprop := (List.mem_filter.1 hef).2
  have hsome : (l.find? (fun e =>
      decide (0 ≤ e.actor_id) && e.label == "malicious" &&
        decide (e.actor_id = a))).isSome := by
    rw [List.find?_isSome]
    refine ⟨e, hmem, ?_⟩
    simp only [Bool.and_eq_true, beq_iff_eq, decide_eq_true_eq] at hprop ⊢
    exact ⟨⟨hprop.2, hprop.1⟩, hea⟩
  obtain ⟨x, hx⟩ := Option.isSome_iff_exists.1 hsome
  exact ⟨x.step, by rw [first_mal_step, hx]; rfl⟩

/-- The weight-sum accumulator never decreases. -/
theorem iw_fold_den_mono (events : List Event)
    (hsev : ∀ a, severity_by_actor events ("traffic") a = none)
    (l : List ℤ) :
    ∀ nd : ℚ × ℚ, nd.2 ≤ (l.foldl (iw_body events) nd).2 := by
  induction l with
  | nil => intro nd; exact le_refl _
  | cons a as ih =>
    intro nd
    rw [List.foldl_cons]
    refine le_trans ?_ (ih (iw_body events nd a))
    rcases hfm : first_mal_step events a with _ | fm
    · rw [iw_body, hfm]
    · rw [iw_body, hfm, hsev a]
      have hp := scenario_impact_pos (((scenario_by_actor events) a).getD "")
      dsimp only
      linarith

/-- With at least one malicious actor and an empty severity map, the
weight sum is strictly positive. -/
theorem iwSums_den_pos (events : List Event)
    (hsev : ∀ a, severity_by_actor events ("traffic") a = none)
    (hne : maliciousOf events ≠ []) : 0 < (iwSums events).2 := by
  rw [iwSums]
  rcases hml : maliciousOf events with _ | ⟨a, l⟩
  · exact absurd hml hne
  · rw [List.foldl_cons]
    refine lt_of_lt_of_le ?_ (iw_fold_den_mono events hsev l _)
    have hmem : a ∈ maliciousOf events := by
      rw [hml]
      exact List.mem_cons_self a l
    obtain ⟨fm, hfm⟩ := maliciousOf_first_mal events a hmem
    rw [iw_body, hfm, hsev a]
    have hp := scenario_impact_pos (((scenario_by_actor events) a).getD "")
    dsimp only
    linarith

theorem iw_ttd_ne_none (events : List Event) (hpos : 0 < (iwSums events).2) :
    iw_ttd events ≠ none := by
  rw [iw_ttd, if_pos hpos]
  simp

end CdtMVP

namespace CdtMVP

theorem eval_iw_ttd_eq (events0 : List Event) :
    (eval_from_events events0).iw_ttd = iw_ttd (filter_to_test events0) := rfl

theorem eval_mean_ttd_eq (events0 : List Event) :
    (eval_from_events events0).mean_ttd = mean_ttd (filter_to_test events0) := rfl

theorem rhoB_iw_ttd_ne_none :
    (eval_from_events (run_simulation rhoB 60 240 6)).iw_ttd ≠ none := by
  rw [eval_iw_ttd_eq]
  have hcause : ∀ e ∈ filter_to_test (run_simulation rhoB 60 240 6),
      (e.meta.cause_actor_id).getD none = none := by
    intro e he
    have he2 : e ∈ run_simulation rhoB 60 240 6 := (List.mem_filter.1 he).1
    have he3 : e ∈ (stateAfter rhoB 60 240 6 (60 + 240)).events := by
      rw [← run_simulation_events]
      exact he2
    exact (rhoB_cause_inv (60 + 240)).1 e he3
  have hsev := fun a => severity_by_actor_none
    (filter_to_test (run_simulation rhoB 60 240 6)) ("traffic") hcause a
  have hmem : emailEvt 60 60 4 ∈ filter_to_test (run_simulation rhoB 60 240 6) := by
    apply List.mem_filter.2
    refine ⟨rhoB_email_in_run, ?_⟩
    show ((emailEvt 60 60 4).phase == some ("test")) = true
    with_unfolding_all decide
  have hne : maliciousOf (filter_to_test (run_simulation rhoB 60 240 6)) ≠ [] := by
    apply List.ne_nil_of_mem (a := (4 : ℤ))
    apply (mem_sortedDedup _ _).2
    apply List.mem_map_of_mem (f := fun e => e.actor_id) (a := emailEvt 60 60 4)
    apply List.mem_filter.2
    refine ⟨hmem, ?_⟩
    show ((emailEvt 60 60 4).label == "malicious" &&
      decide (0 ≤ (emailEvt 60 60 4).actor_id)) = true
    with_unfolding_all decide
  exact iw_ttd_ne_none _ (iwSums_den_pos _ hsev hne)

set_option maxRecDepth 4000 in
/-- C4 counterexample: two runs at the claimed configuration (defaults
with confirmation_threshold 6). On the first stream a single test-phase
malicious event occurs and is never confirmed, so iw_ttd is the right-
censored weighted value, not null as claimed. On the second stream one
step contains six malicious events, which reaches the threshold because
the monitor counts events with multiplicity, so the confirmed set is not
empty as claimed. -/
theorem C4_counterexample :
    (eval_from_events (run_simulation rhoB 60 240 6)).iw_ttd ≠ none ∧
    confirmedOf (filter_to_test (run_simulation rhoC 60 240 6)) ≠ [] :=
  ⟨rhoB_iw_ttd_ne_none, rhoC_confirmed_ne_nil⟩

end CdtMVP

namespace CdtMVP

theorem ite_singleton_length_le {α : Type} (c : Prop) [Decidable c] (x : α) :
    (if c then [x] else []).length ≤ 1 := by
  split <;> simp

/-- The five attackers emit at most seven events per step. -/
theorem attacker_events_length_le (ρ : ℕ → ℚ) (r s w : ℕ) :
    (attacker_events ρ r s w).length ≤ 7 := by
  simp only [attacker_events, acct_events, stealth_events, staging_events,
    exfil_events, email_events, List.length_append]
  have l1 := ite_singleton_length_le (ρ r < 0.20) (acctAuthEvt s w 0)
  have l2 := ite_singleton_length_le (ρ (r + 1) < 0.12) (acctPushEvt s w 0)
  have l3 := ite_singleton_length_le (ρ (r + 2) < 0.07) (stealthDbEvt s w 1)
  have l4 := ite_singleton_length_le (ρ (r + 2 + 1) < 0.10) (stealthTweakEvt s w 1)
  have l5 := ite_singleton_length_le (ρ (r + 4) < 0.09) (stagingEvt s w 2)
  have l6 := ite_singleton_length_le (ρ (r + 5) < 0.11) (exfilEvt s w 3)
  have l7 := ite_singleton_length_le (ρ (r + 6) < 0.08) (emailEvt s w 4)
  omega

/-- At most seven events of the monitor buffer are suspicious: the
background and the service snapshot are benign and the attackers emit at
most seven events. -/
theorem buf2_suspicious_le (ρ : ℕ → ℚ) (r s w : ℕ) (t : TrafficTwin) :
    ((buf2 ρ r s w t).filter isSuspicious).length ≤ 7 := by
  rw [buf2, List.filter_append]
  have hsvc : ([svcEvt s w t (buf1 ρ r s w)].filter isSuspicious) = [] := by
    simp [isSuspicious, svcEvt]
  rw [hsvc, List.append_nil, buf1, List.filter_append]
  have hbg : (bg_events ρ r s w (List.range' 5 7)).filter isSuspicious = [] := by
    apply List.filter_eq_nil_iff.2
    intro e he
    obtain ⟨i, rfl⟩ := mem_bg_events ρ r s w _ e he
    simp [isSuspicious, bgEvt]
  rw [hbg, List.nil_append]
  have h1 := List.length_filter_le isSuspicious (attacker_events ρ (r + 7) s w)
  have h2 := attacker_events_length_le ρ (r + 7) s w
  omega

/-- With any threshold of at least 8 the monitor can never fire. -/
theorem no_alert_th8 (ρ : ℕ → ℚ) (w t : ℕ) (th : ℤ) (hth : 8 ≤ th) (k : ℕ) :
    ∀ e ∈ (stateAfter ρ w t th k).events, e.event_type ≠ "alert_confirmed" := by
  induction k with
  | zero =>
    intro e he
    simp [stateAfter, initModel] at he
  | succ k ih =>
    intro e he
    rw [stateAfter_events_succ] at he
    rcases List.mem_append.1 he with hold | hnew
    · exact ih e hold
    · intro htype
      obtain ⟨a, rfl, hcnt, -⟩ := mem_step_events_alert ρ _ _ _ _ _ e hnew htype
      have hle := buf2_suspicious_le ρ (14 * k) k w
        (stateAfter ρ w t th k).traffic_twin
      omega

theorem confirmedOf_nil_of_no_alert (l : List Event)
    (h : ∀ e ∈ l, e.event_type ≠ "alert_confirmed") : confirmedOf l = [] := by
  rw [confirmedOf]
  have hf : l.filter (fun e => e.event_type == "alert_confirmed" &&
      decide (0 ≤ e.actor_id)) = [] := by
    apply List.filter_eq_nil_iff.2
    intro e he
    simp [h e he]
  rw [hf]
  rfl

theorem first_conf_none_of_no_alert (l : List Event) (a : ℤ)
    (h : ∀ e ∈ l, e.event_type ≠ "alert_confirmed") :
    first_conf_step l a = none := by
  rw [first_conf_step]
  have hf : l.find? (fun e => decide (0 ≤ e.actor_id) &&
      e.event_type == "alert_confirmed" && decide (e.actor_id = a)) = none := by
    apply List.find?_eq_none.2
    intro e he
    simp [h e he]
  rw [hf]
  rfl

theorem mean_ttd_none_of_no_alert (l : List Event)
    (h : ∀ e ∈ l, e.event_type ≠ "alert_confirmed") : mean_ttd l = none := by
  have hv : ttd_values l = [] := by
    rw [ttd_values]
    apply List.filterMap_eq_nil_iff.2
    intro a _
    rw [first_conf_none_of_no_alert l a h]
  rw [mean_ttd, hv]
  rfl

set_option maxRecDepth 4000 in
/-- C4 amended: with a confirmation_threshold of 8 or more — at least one
above the largest possible per-step malicious event count of 7 — no
alert_confirmed event is ever emitted, so for every stream and every
warmup/test split the confirmed actor set is empty and mean_ttd is null;
sdp can still be 1.0 on such a run, and iw_ttd is then the
right-censored weighted value rather than null. -/
theorem C4_amended :
    (∀ (ρ : ℕ → ℚ) (w t : ℕ) (th : ℤ), 8 ≤ th →
      confirmedOf (filter_to_test (run_simulation ρ w t th)) = [] ∧
      (eval_from_events (run_simulation ρ w t th)).mean_ttd = none) ∧
    (∃ ρ : ℕ → ℚ,
      (eval_from_events (run_simulation ρ 0 1 8)).sdp = 1 ∧
      (eval_from_events (run_simulation ρ 0 1 8)).iw_ttd ≠ none) := by
  constructor
  · intro ρ w t th hth
    have hna : ∀ e ∈ filter_to_test (run_simulation ρ w t th),
        e.event_type ≠ "alert_confirmed" := by
      intro e he
      exact no_alert_th8 ρ w t th hth (w + t) e (List.mem_filter.1 he).1
    exact ⟨confirmedOf_nil_of_no_alert _ hna,
      (eval_mean_ttd_eq _).trans (mean_ttd_none_of_no_alert _ hna)⟩
  · refine ⟨fun _ => 0, ?_, ?_⟩
    · with_unfolding_all decide
    · with_unfolding_all decide

/-- Concrete instance of the C4 amended theorem at threshold 9, one of
the covered thresholds strictly above 8. -/
theorem C4_amended_witness :
    confirmedOf (filter_to_test (run_simulation (fun _ => 1) 1 1 9)) = [] ∧
    (eval_from_events (run_simulation (fun _ => 1) 1 1 9)).mean_ttd = none :=
  C4_amended.1 (fun _ => 1) 1 1 9 (by omega)

end CdtMVP
